import Mathlib

/-!
ESC/POS command encoder (`escpos.go`): shallow embedding and checked properties.

Go values are embedded as follows.

* `byte`, `uint8`, `uint16` are natural numbers, reduced modulo `2^8` / `2^16`
  wherever the Go code converts or wraps.
* `int` is `Int`.
* a Go `string` and a Go `[]byte` are both lists of byte values (`List Nat`):
  Go strings are byte sequences, not sequences of code points.
* `map[string]string` is a finite lookup `GoString → Option GoString`.
* `log.Fatal` ends the process.  An operation therefore yields an `Outcome`:
  either the encoder after the call, or the encoder as it stood when the
  process was stopped together with the place that stopped it.
* iterating over a Go map visits the entries in an unspecified order; the
  order used by one run of `textReplace` is an explicit argument.
-/

namespace Escpos

/-- A Go string or byte slice: the sequence of its bytes. -/
abbrev GoString := List Nat

/-- A Go `map[string]string`, seen through its lookup operation. -/
abbrev Params := GoString → Option GoString

/-- The empty parameter map. -/
def noParams : Params := fun _ => none

/-! ## Standard-library helpers used by the encoder -/

/-- Go `utf8.AppendRune`: the UTF-8 encoding of a code point; surrogates and
values above U+10FFFF are written as U+FFFD. -/
def appendRune (r : Nat) : List Nat :=
  if r ≤ 0x7F then [r]
  else if r ≤ 0x7FF then [0xC0 ||| (r >>> 6), 0x80 ||| (r &&& 0x3F)]
  else if 0x10FFFF < r ∨ (0xD800 ≤ r ∧ r ≤ 0xDFFF) then [0xEF, 0xBF, 0xBD]
  else if r ≤ 0xFFFF then
    [0xE0 ||| (r >>> 12), 0x80 ||| ((r >>> 6) &&& 0x3F), 0x80 ||| (r &&& 0x3F)]
  else
    [0xF0 ||| (r >>> 18), 0x80 ||| ((r >>> 12) &&& 0x3F),
     0x80 ||| ((r >>> 6) &&& 0x3F), 0x80 ||| (r &&& 0x3F)]

/-- Go `fmt` verb `%c` applied to an integer: the integer is read as a code
point (a negative `int` becomes a huge `uint64`, hence U+FFFD) and written in
UTF-8. -/
def fmtC (c : Int) : List Nat :=
  if c < 0 ∨ 0x10FFFF < c then [0xEF, 0xBF, 0xBD] else appendRune c.toNat

/-- Go conversion `uint8(i)` / `byte(i)` of an `int`. -/
def toUint8 (i : Int) : Nat := (i % 256).toNat

/-- Go conversion `uint16(i)` of an `int`. -/
def toUint16 (i : Int) : Nat := (i % 65536).toNat

/-- The bytes of a source-code string literal (UTF-8). -/
def lit (s : String) : GoString := s.toList.flatMap fun c => appendRune c.toNat

/-! ## The encoder state -/

/-- The place in `escpos.go` at which a run was stopped. -/
inductive Stop where
  /-- `SetFont`: `log.Fatal("Invalid font ...")`. -/
  | invalidFont
  /-- `SetFontSize`: `log.Fatal("Invalid font size passed ...")`. -/
  | invalidFontSize
  /-- `SetAlign`: `log.Fatal("Invalid alignment ...")`. -/
  | invalidAlign
  /-- `SetLang`: `log.Fatal("Invalid language ...")`. -/
  | invalidLang
  /-- `Text`: `log.Fatal("Invalid font width ...")`. -/
  | invalidFontWidth
  /-- `Text`: `log.Fatal("Invalid font height ...")`. -/
  | invalidFontHeight
  /-- `Text`: `log.Fatal("Invalid x param ...")`. -/
  | invalidX
  /-- `Text`: `log.Fatal("Invalid y param ...")`. -/
  | invalidY
  /-- `Feed`: `log.Fatal("Invalid line number ...")`. -/
  | invalidLine
  /-- `Feed`: `log.Fatal("Invalid unit number ...")`. -/
  | invalidUnit
  /-- `Image`: `log.Fatal("No width specified on image")`. -/
  | noImageWidth
  /-- `Image`: `log.Fatal("No height specified on image")`. -/
  | noImageHeight
  /-- `Image`: `log.Fatal("Invalid image width ...")`. -/
  | invalidImageWidth
  /-- `Image`: `log.Fatal("Invalid image height ...")`. -/
  | invalidImageHeight
  /-- `Image`: `log.Fatal(err)` after a failed base64 decode. -/
  | badBase64
  /-- A Go run-time error: slice bounds out of range in `font[5:6]`. -/
  | sliceOutOfRange
deriving DecidableEq, Repr

/-- The struct `Escpos` (the unused writer `dst` is left out). -/
structure Printer where
  width : Nat
  height : Nat
  underline : Nat
  emphasize : Nat
  upsidedown : Nat
  rotate : Nat
  reverse : Nat
  smooth : Nat
  s : GoString
  b : GoString
deriving DecidableEq, Repr

/-- What a call leaves behind. -/
inductive Outcome where
  /-- The call returned; the encoder afterwards. -/
  | ok (e : Printer)
  /-- The process was stopped at `at_`; the encoder as it stood then. -/
  | stopped (at_ : Stop) (e : Printer)
deriving DecidableEq, Repr

/-- Sequencing: run `f` on the encoder if the run is still alive. -/
def Outcome.andThen (o : Outcome) (f : Printer → Outcome) : Outcome :=
  match o with
  | Outcome.ok e => f e
  | Outcome.stopped w e => Outcome.stopped w e

/-- The eight fields that describe the printer (everything but the buffers). -/
def Printer.settings (e : Printer) : List Nat :=
  [e.width, e.height, e.underline, e.emphasize, e.upsidedown, e.rotate, e.reverse, e.smooth]

/-- Method `reset`. -/
def reset (e : Printer) : Printer :=
  { e with width := 1, height := 1, underline := 0, emphasize := 0, upsidedown := 0,
           rotate := 0, reverse := 0, smooth := 0 }

/-- Function `New`: the zero struct, then `reset`. -/
def New : Printer :=
  reset { width := 0, height := 0, underline := 0, emphasize := 0, upsidedown := 0,
          rotate := 0, reverse := 0, smooth := 0, s := [], b := [] }

/-- Method `WriteRaw`: append to `b`. -/
def WriteRaw (e : Printer) (data : GoString) : Printer :=
  { e with b := e.b ++ data }

/-- Method `Write`: append to `s`, then `WriteRaw`. -/
def Write (e : Printer) (data : GoString) : Printer :=
  WriteRaw { e with s := e.s ++ data } data

/-- Method `Readbyte`. -/
def Readbyte (e : Printer) : Nat × GoString := (e.b.length, e.b)

/-- Method `ReadString`. -/
def ReadString (e : Printer) : GoString := e.s

/-- Method `SendFontSize`: `"\x1D!%c"` with `((width-1)<<4)|(height-1)` in `uint8`. -/
def SendFontSize (e : Printer) : Printer :=
  Write e ([0x1D, 0x21] ++
    fmtC (((((e.width + 255) % 256) <<< 4) % 256) ||| ((e.height + 255) % 256) : Nat))

/-- Method `SetFontSize`. -/
def SetFontSize (e : Printer) (width height : Nat) : Outcome :=
  if 0 < width ∧ 0 < height ∧ width ≤ 8 ∧ height ≤ 8 then
    Outcome.ok (SendFontSize { e with width := width, height := height })
  else
    Outcome.stopped Stop.invalidFontSize e

/-- Method `SendUnderline`. -/
def SendUnderline (e : Printer) : Printer := Write e ([0x1B, 0x2D] ++ fmtC e.underline)

/-- Method `SendEmphasize`. -/
def SendEmphasize (e : Printer) : Printer := Write e ([0x1B, 0x47] ++ fmtC e.emphasize)

/-- Method `SendUpsidedown`. -/
def SendUpsidedown (e : Printer) : Printer := Write e ([0x1B, 0x7B] ++ fmtC e.upsidedown)

/-- Method `SendRotate`. -/
def SendRotate (e : Printer) : Printer := Write e ([0x1B, 0x52] ++ fmtC e.rotate)

/-- Method `SendReverse`. -/
def SendReverse (e : Printer) : Printer := Write e ([0x1D, 0x42] ++ fmtC e.reverse)

/-- Method `SendSmooth`. -/
def SendSmooth (e : Printer) : Printer := Write e ([0x1D, 0x62] ++ fmtC e.smooth)

/-- Method `SendMoveX`; `x` is a `uint16`. -/
def SendMoveX (e : Printer) (x : Nat) : Printer :=
  Write e [0x1B, 0x24, (x % 256) % 256, (x / 256) % 256]

/-- Method `SendMoveY`; `y` is a `uint16`. -/
def SendMoveY (e : Printer) (y : Nat) : Printer :=
  Write e [0x1D, 0x24, (y % 256) % 256, (y / 256) % 256]

/-- Method `SetUnderline`. -/
def SetUnderline (e : Printer) (v : Nat) : Printer := SendUnderline { e with underline := v }

/-- Method `SetEmphasize`. -/
def SetEmphasize (e : Printer) (u : Nat) : Printer := SendEmphasize { e with emphasize := u }

/-- Method `SetUpsidedown`. -/
def SetUpsidedown (e : Printer) (v : Nat) : Printer := SendUpsidedown { e with upsidedown := v }

/-- Method `SetRotate`. -/
def SetRotate (e : Printer) (v : Nat) : Printer := SendRotate { e with rotate := v }

/-- Method `SetReverse`. -/
def SetReverse (e : Printer) (v : Nat) : Printer := SendReverse { e with reverse := v }

/-- Method `SetSmooth`. -/
def SetSmooth (e : Printer) (v : Nat) : Printer := SendSmooth { e with smooth := v }

/-- Method `SetMoveSize`: the `%c` text is written, then the two raw bytes. -/
def SetMoveSize (e : Printer) (x y : Int) : Printer :=
  let e := Write e ([0x1D] ++ fmtC 80 ++ fmtC x ++ fmtC y)
  let e := { e with b := e.b ++ [toUint8 x] }
  { e with b := e.b ++ [toUint8 y] }

/-- Method `SetPrinterType`. -/
def SetPrinterType (e : Printer) (n : Int) : Printer := Write e ([0x1B, 0x21] ++ fmtC n)

/-- Method `SetLineSpacing`. -/
def SetLineSpacing (e : Printer) (n : Int) : Printer := Write e ([0x1B, 0x33] ++ fmtC n)

/-- Method `SetLocation`. -/
def SetLocation (e : Printer) (l n : Int) : Printer :=
  let e := Write e [0x1B, 0x24]
  let e := { e with b := e.b ++ [toUint8 l] }
  { e with b := e.b ++ [toUint8 n] }

/-- Method `SetReLocation`; the literal `"\x1B\\$"` is the three bytes `1B 5C 24`. -/
def SetReLocation (e : Printer) (l n : Int) : Printer :=
  let e := Write e [0x1B, 0x5C, 0x24]
  let e := { e with b := e.b ++ [toUint8 l] }
  { e with b := e.b ++ [toUint8 n] }

/-- Method `SetPrintPic`. -/
def SetPrintPic (e : Printer) : Printer :=
  Write e ([0x1D, 0x2A] ++ fmtC 2 ++ fmtC 2 ++ lit "11111000001010101111100000101010")

/-- Method `PrintPic`. -/
def PrintPic (e : Printer) : Printer := Write e ([0x1D, 0x2F] ++ fmtC 0)

/-- Method `OpenCashBox`. -/
def OpenCashBox (e : Printer) : Printer :=
  let e := Write e ([0x1B, 0x70] ++ fmtC 0 ++ fmtC 2 ++ fmtC 4)
  Write e ([0x10, 0x14] ++ fmtC 1 ++ fmtC 0 ++ fmtC 1)

/-- Method `MoveBaseSize`. -/
def MoveBaseSize (e : Printer) : Printer := Write e [0x09]

/-- Method `QrCode`. -/
def QrCode (e : Printer) : Printer :=
  Write e ([0x1B, 0x5A, 0x02] ++ fmtC 100 ++ fmtC 1 ++ [0x00] ++ fmtC 20 ++
    lit "http://www.baidu.com")

/-- Method `Barcode`. -/
def Barcode (e : Printer) (s : GoString) : Printer :=
  Write e ([0x1D, 0x6B] ++ fmtC 4 ++ s ++ fmtC 0)

/-- Method `SendRightSpace`. -/
def SendRightSpace (e : Printer) (n : Int) : Printer := Write e ([0x1B] ++ fmtC 32 ++ fmtC n)

/-- Method `PrintAndFeed`. -/
def PrintAndFeed (e : Printer) (i : Int) : Printer := Write e ([0x1B, 0x4A] ++ fmtC i)

/-- Method `BarcodeHRI`. -/
def BarcodeHRI (e : Printer) (n : Int) : Printer := Write e ([0x1D, 0x48] ++ fmtC n)

/-- Method `BarcodeHRIFontSize`. -/
def BarcodeHRIFontSize (e : Printer) (n : Int) : Printer := Write e ([0x1D, 0x66] ++ fmtC n)

/-- Method `BarcodeHigth`. -/
def BarcodeHigth (e : Printer) (n : Int) : Printer := Write e ([0x1D, 0x68] ++ fmtC n)

/-- Method `Init`. -/
def Init (e : Printer) : Printer :=
  let e := reset e
  let e := Write e [0x1B, 0x40]
  let e := SendEmphasize e
  let e := SetPrinterType e 0
  SendRotate e

/-- Method `End`. -/
def End (e : Printer) : Printer := Write e [0xFA]

/-- Method `Cut`. -/
def Cut (e : Printer) : Printer := Write e [0x1D, 0x56, 0x41, 0x30]

/-- Method `FormfeedN`. -/
def FormfeedN (e : Printer) (n : Int) : Printer := Write e ([0x1B, 0x64] ++ fmtC n)

/-- Method `Linefeed`. -/
def Linefeed (e : Printer) (n : Int) : Printer := FormfeedN e n

/-- Method `Formfeed`. -/
def Formfeed (e : Printer) : Printer := FormfeedN e 1

/-- Method `PrintSplitLine`: `s` once, then once more for each `i` in `0..n-1`. -/
def PrintSplitLine (e : Printer) (n : Int) (s : GoString) : Printer :=
  let t := s ++ (List.replicate n.toNat s).flatten
  Linefeed (Write e t) 1

/-- Method `Pulse`. -/
def Pulse (e : Printer) : Printer := Write e [0x1B, 0x70, 0x02]

/-- Method `SetFont`. -/
def SetFont (e : Printer) (font : GoString) : Outcome :=
  if font = lit "A" then Outcome.ok (Write e ([0x1B, 0x4D] ++ fmtC 0))
  else if font = lit "B" then Outcome.ok (Write e ([0x1B, 0x4D] ++ fmtC 1))
  else Outcome.stopped Stop.invalidFont e

/-- The switch of `SetAlign`. -/
def alignCode (align : GoString) : Option Int :=
  if align = lit "left" then some 0
  else if align = lit "center" then some 1
  else if align = lit "right" then some 2
  else none

/-- Method `SetAlign`. -/
def SetAlign (e : Printer) (align : GoString) : Outcome :=
  match alignCode align with
  | some a => Outcome.ok (Write e ([0x1B, 0x61] ++ fmtC a))
  | none => Outcome.stopped Stop.invalidAlign e

/-- The switch of `SetLang`. -/
def langCode (lang : GoString) : Option Int :=
  if lang = lit "en" then some 0
  else if lang = lit "fr" then some 1
  else if lang = lit "de" then some 2
  else if lang = lit "uk" then some 3
  else if lang = lit "da" then some 4
  else if lang = lit "sv" then some 5
  else if lang = lit "it" then some 6
  else if lang = lit "es" then some 7
  else if lang = lit "ja" then some 8
  else if lang = lit "no" then some 9
  else none

/-- Method `SetLang`. -/
def SetLang (e : Printer) (lang : GoString) : Outcome :=
  match langCode lang with
  | some l => Outcome.ok (Write e ([0x1B, 0x52] ++ fmtC l))
  | none => Outcome.stopped Stop.invalidLang e

/-! ## `strconv.Atoi` -/

/-- Decimal digits, most significant first, added to `acc`; `none` on a byte
that is not `0`..`9`. -/
def parseDigits : List Nat → Nat → Option Nat
  | [], acc => some acc
  | c :: cs, acc => if 48 ≤ c ∧ c ≤ 57 then parseDigits cs (acc * 10 + (c - 48)) else none

/-- Go `strconv.Atoi` on a 64-bit platform: an optional sign, then at least
one decimal digit, the value within the range of `int`; `none` stands for a
non-nil error. -/
def Atoi (s : GoString) : Option Int :=
  match s with
  | [] => none
  | c :: cs =>
    let body := if c = 45 ∨ c = 43 then cs else s
    if body = [] then none
    else
      match parseDigits body 0 with
      | none => none
      | some n =>
        if c = 45 then (if n ≤ 2 ^ 63 then some (-(n : Int)) else none)
        else (if n < 2 ^ 63 then some (n : Int) else none)

/-! ## `encoding/base64`, the padded standard encoding -/

/-- The alphabet of `base64.StdEncoding`. -/
def encodeStd : List Nat :=
  lit "ABCDEFGHIJKLMNOPQRSTUVWXYZabcdefghijklmnopqrstuvwxyz0123456789+/"

/-- The character for a six-bit value. -/
def encodeSextet (n : Nat) : Nat := encodeStd.getD n 0

/-- The six-bit value of a character of the alphabet (`decodeMap`; `none` is
the entry `0xff`). -/
def decodeMap (c : Nat) : Option Nat :=
  if encodeStd.indexOf c < 64 then some (encodeStd.indexOf c) else none

/-- Go `StdEncoding.EncodeToString`.  The sextets of a group occupy disjoint
bit ranges, so the shifts and ors of the Go code are written as products and
sums. -/
def b64Encode : List Nat → GoString
  | a :: b :: c :: rest =>
    let val := a * 65536 + b * 256 + c
    [encodeSextet (val / 262144 % 64), encodeSextet (val / 4096 % 64),
     encodeSextet (val / 64 % 64), encodeSextet (val % 64)] ++ b64Encode rest
  | [a, b] =>
    let val := a * 65536 + b * 256
    [encodeSextet (val / 262144 % 64), encodeSextet (val / 4096 % 64),
     encodeSextet (val / 64 % 64), 61]
  | [a] =>
    let val := a * 65536
    [encodeSextet (val / 262144 % 64), encodeSextet (val / 4096 % 64), 61, 61]
  | [] => []

/-- Drop leading `\n` and `\r`. -/
def skipNewlines : List Nat → List Nat
  | [] => []
  | c :: cs => if c = 10 ∨ c = 13 then skipNewlines cs else c :: cs

/-- The bytes of one quantum of `dlen` sextets (`dlen - 1` bytes). -/
def quantumBytes (dbuf : List Nat) : List Nat :=
  let val := dbuf.getD 0 0 * 262144 + dbuf.getD 1 0 * 4096 + dbuf.getD 2 0 * 64 + dbuf.getD 3 0
  ([val / 65536 % 256, val / 256 % 256, val % 256]).take (dbuf.length - 1)

/-- Go `StdEncoding.Decode`, quantum by quantum (`decodeQuantum`, not strict):
`dbuf` holds the sextets of the quantum being read.  Newlines are skipped, a
quantum may end in `=` padding after two or three sextets, and after padding
only newlines may follow.  `none` stands for `CorruptInputError`. -/
def decodeFrom : List Nat → List Nat → Option (List Nat)
  | [], dbuf => if dbuf = [] then some [] else none
  | c :: rest, dbuf =>
    match decodeMap c with
    | some v =>
      if dbuf.length = 3 then (decodeFrom rest []).map (quantumBytes (dbuf ++ [v]) ++ ·)
      else decodeFrom rest (dbuf ++ [v])
    | none =>
      if c = 10 ∨ c = 13 then decodeFrom rest dbuf
      else if c ≠ 61 then none
      else if dbuf.length = 2 then
        match skipNewlines rest with
        | [] => none
        | c2 :: rest2 =>
          if c2 ≠ 61 then none
          else if skipNewlines rest2 = [] then some (quantumBytes dbuf) else none
      else if dbuf.length = 3 then
        (if skipNewlines rest = [] then some (quantumBytes dbuf) else none)
      else none

/-- Go `base64.StdEncoding.DecodeString`; `none` stands for a non-nil error. -/
def DecodeString (data : GoString) : Option (List Nat) := decodeFrom data []

/-! ## Text replacement -/

/-- The entries of `textReplaceMap`, in the order of the source text. -/
def textReplaceMap : List (GoString × GoString) :=
  [ (lit "&#9;", [0x09]),
    (lit "&#x9;", [0x09]),
    (lit "&#10;", [0x0A]),
    (lit "&#xA;", [0x0A]),
    (lit "&apos;", lit "\x27"),
    (lit "&quot;", lit "\""),
    (lit "&gt;", lit ">"),
    (lit "&lt;", lit "<"),
    (lit "&amp;", lit "&") ]

/-- Go `strings.Replace(s, old, new, -1)` for a non-empty `old`: scanning from
the left, every occurrence of `old` that does not overlap an earlier one is
replaced.  `skip` counts the bytes of the occurrence just replaced that are
still to be passed over.  (Every key of `textReplaceMap` is non-empty; the
empty `old` of Go, which works rune by rune, is not covered.) -/
def replaceGo (old new : GoString) : Nat → GoString → GoString
  | _, [] => []
  | k + 1, _ :: s => replaceGo old new k s
  | 0, c :: s =>
    if old.isPrefixOf (c :: s) then new ++ replaceGo old new (old.length - 1) s
    else c :: replaceGo old new 0 s

/-- Go `strings.Replace(s, old, new, -1)`. -/
def Replace (s old new : GoString) : GoString := replaceGo old new 0 s

/-- Function `textReplace`, for one traversal `order` of the map: the loop
`for k, v := range textReplaceMap`. -/
def textReplaceIn (order : List (GoString × GoString)) (data : GoString) : GoString :=
  order.foldl (fun d kv => Replace d kv.1 kv.2) data

/-- The traversals a `range` over `textReplaceMap` can make: each entry once,
in any order. -/
def Traversal (order : List (GoString × GoString)) : Prop := order.Perm textReplaceMap

/-! ## Nodes -/

/-- The test `ok && (v == "true" || v == "1")` on a looked-up parameter. -/
def truthy (v : Option GoString) : Bool :=
  decide (v = some (lit "true") ∨ v = some (lit "1"))

/-- Go `strings.ToUpper` on a string of one byte. -/
def toUpper1 (c : Nat) : GoString :=
  if 97 ≤ c ∧ c ≤ 122 then [c - 32] else if c < 128 then [c] else [0xEF, 0xBF, 0xBD]

/-- Method `Text`, with the traversal order of its `textReplace`. -/
def Text (order : List (GoString × GoString)) (e : Printer) (params : Params)
    (data : GoString) : Outcome :=
  (match params (lit "align") with
    | some align => SetAlign e align
    | none => Outcome.ok e).andThen fun e =>
  (match params (lit "lang") with
    | some lang => SetLang e lang
    | none => Outcome.ok e).andThen fun e =>
  let e := if truthy (params (lit "smooth")) then SetSmooth e 1 else e
  let e := if truthy (params (lit "em")) then SetEmphasize e 1 else e
  let e := if truthy (params (lit "ul")) then SetUnderline e 1 else e
  let e := if truthy (params (lit "reverse")) then SetReverse e 1 else e
  let e := if truthy (params (lit "rotate")) then SetRotate e 1 else e
  (match params (lit "font") with
    | some font =>
      if font.length < 6 then Outcome.stopped Stop.sliceOutOfRange e
      else SetFont e (toUpper1 (font.getD 5 0))
    | none => Outcome.ok e).andThen fun e =>
  (if truthy (params (lit "dw")) then SetFontSize e 2 e.height else Outcome.ok e).andThen fun e =>
  (if truthy (params (lit "dh")) then SetFontSize e e.width 2 else Outcome.ok e).andThen fun e =>
  (match params (lit "width") with
    | some width =>
      (match Atoi width with
        | some i => SetFontSize e (toUint8 i) e.height
        | none => Outcome.stopped Stop.invalidFontWidth e)
    | none => Outcome.ok e).andThen fun e =>
  (match params (lit "height") with
    | some height =>
      (match Atoi height with
        | some i => SetFontSize e e.width (toUint8 i)
        | none => Outcome.stopped Stop.invalidFontHeight e)
    | none => Outcome.ok e).andThen fun e =>
  (match params (lit "x") with
    | some x =>
      (match Atoi x with
        | some i => Outcome.ok (SendMoveX e (toUint16 i))
        | none => Outcome.stopped Stop.invalidX e)
    | none => Outcome.ok e).andThen fun e =>
  (match params (lit "y") with
    | some y =>
      (match Atoi y with
        | some i => Outcome.ok (SendMoveY e (toUint16 i))
        | none => Outcome.stopped Stop.invalidY e)
    | none => Outcome.ok e).andThen fun e =>
  let data := textReplaceIn order data
  if 0 < data.length then Outcome.ok (Write e data) else Outcome.ok e

/-- Method `Feed`. -/
def Feed (e : Printer) (params : Params) : Outcome :=
  (match params (lit "line") with
    | some l =>
      (match Atoi l with
        | some i => Outcome.ok (FormfeedN e i)
        | none => Outcome.stopped Stop.invalidLine e)
    | none => Outcome.ok e).andThen fun e =>
  (match params (lit "unit") with
    | some u =>
      (match Atoi u with
        | some i => Outcome.ok (SendMoveY e (toUint16 i))
        | none => Outcome.stopped Stop.invalidUnit e)
    | none => Outcome.ok e).andThen fun e =>
  let e := Linefeed e 1
  let e := reset e
  let e := SendEmphasize e
  let e := SendRotate e
  let e := SendSmooth e
  let e := SendReverse e
  let e := SendUnderline e
  let e := SendUpsidedown e
  let e := SendFontSize e
  Outcome.ok (SendUnderline e)

/-- Method `FeedAndCut`. -/
def FeedAndCut (e : Printer) (params : Params) : Printer :=
  let e := if params (lit "type") = some (lit "feed") then Formfeed e else e
  Cut e

/-- Method `gSend`; `l` is an `int`, its two bytes are cut to `byte`. -/
def gSend (e : Printer) (m fn : Nat) (data : GoString) : Printer :=
  let l := data.length + 2
  let e := Write e [0x1B, 0x28, 0x4C]
  let e := WriteRaw e [(l % 256) % 256, (l / 256) % 256, m, fn]
  WriteRaw e data

/-- Method `Image`. -/
def Image (e : Printer) (params : Params) (data : GoString) : Outcome :=
  (match params (lit "align") with
    | some align => SetAlign e align
    | none => Outcome.ok e).andThen fun e =>
  match params (lit "width") with
  | none => Outcome.stopped Stop.noImageWidth e
  | some wstr =>
    match params (lit "height") with
    | none => Outcome.stopped Stop.noImageHeight e
    | some hstr =>
      match Atoi wstr with
      | none => Outcome.stopped Stop.invalidImageWidth e
      | some _ =>
        match Atoi hstr with
        | none => Outcome.stopped Stop.invalidImageHeight e
        | some _ =>
          match DecodeString data with
          | none => Outcome.stopped Stop.badBase64 e
          | some dec =>
            let header : GoString := [0x30, 0x01, 0x01, 0x31]
            let a := header ++ dec
            let e := gSend e 0x30 0x70 a
            Outcome.ok (gSend e 0x30 0x32 [])

/-- Method `WriteNode` (its log lines are not part of the encoder). -/
def WriteNode (order : List (GoString × GoString)) (e : Printer) (name : GoString)
    (params : Params) (data : GoString) : Outcome :=
  if name = lit "text" then Text order e params data
  else if name = lit "feed" then Feed e params
  else if name = lit "cut" then Outcome.ok (FeedAndCut e params)
  else if name = lit "pulse" then Outcome.ok (Pulse e)
  else if name = lit "image" then Image e params data
  else Outcome.ok e

/-! ## Properties -/

/-- The default settings: sizes 1, every toggle 0. -/
def defaults : List Nat := [1, 1, 0, 0, 0, 0, 0, 0]

/-- The node parameters `width=100`, `height=50`. -/
def sizeParams : Params := fun k =>
  if k = lit "width" then some (lit "100")
  else if k = lit "height" then some (lit "50")
  else none

/-- An encoder after `SetUnderline(1)`, `SetEmphasize(1)`, `SetRotate(1)`. -/
def toggled : Printer := SetRotate (SetEmphasize (SetUnderline New 1) 1) 1

/-- The table entry for `&amp;`. -/
def ampEntry : GoString × GoString := (lit "&amp;", lit "&")

/-- The table entry for `&lt;`. -/
def ltEntry : GoString × GoString := (lit "&lt;", lit "<")

/-- The table entry for `&gt;`. -/
def gtEntry : GoString × GoString := (lit "&gt;", lit ">")

/-- The text `A&amp;B` before (`false`) and after (`true`) the `&amp;` entry ran. -/
def stageAmp (done : Bool) : GoString := if done then lit "A&B" else lit "A&amp;B"

/-- The text `&lt;tag&gt;` with the `&lt;` entry run or not, and the `&gt;`
entry run or not. -/
def stageTag (ltDone gtDone : Bool) : GoString :=
  (if ltDone then lit "<" else lit "&lt;") ++ lit "tag" ++
    (if gtDone then lit ">" else lit "&gt;")

/-- Whether a run was stopped. -/
def Outcome.failed : Outcome → Bool
  | Outcome.ok _ => false
  | Outcome.stopped _ _ => true

/-- The encoder an outcome carries. -/
def Outcome.printer : Outcome → Printer
  | Outcome.ok e => e
  | Outcome.stopped _ e => e

/-- A parameter map with the single key `k`. -/
def oneParam (k v : GoString) : Params := fun q => if q = k then some v else none

/-- The language codes of the `SetLang` switch, in source order. -/
def langCodes : List GoString :=
  [lit "en", lit "fr", lit "de", lit "uk", lit "da", lit "sv", lit "it", lit "es", lit "ja",
   lit "no"]

/-- An encoder after `SetFontSize(3, 1)`. -/
def tripled : Printer := (SetFontSize New 3 1).printer

/-! ### The statements of `Text`, one by one -/

/-- `Text`, statement 1: alignment. -/
def alignStep (params : Params) (e : Printer) : Outcome :=
  match params (lit "align") with
  | some align => SetAlign e align
  | none => Outcome.ok e

/-- `Text`, statement 2: language. -/
def langStep (params : Params) (e : Printer) : Outcome :=
  match params (lit "lang") with
  | some lang => SetLang e lang
  | none => Outcome.ok e

/-- `Text`, statements 3 to 7: the flags smooth, em, ul, reverse, rotate. -/
def flagsStep (params : Params) (e : Printer) : Printer :=
  let e := if truthy (params (lit "smooth")) then SetSmooth e 1 else e
  let e := if truthy (params (lit "em")) then SetEmphasize e 1 else e
  let e := if truthy (params (lit "ul")) then SetUnderline e 1 else e
  let e := if truthy (params (lit "reverse")) then SetReverse e 1 else e
  if truthy (params (lit "rotate")) then SetRotate e 1 else e

/-- `Text`, statement 8: font. -/
def fontStep (params : Params) (e : Printer) : Outcome :=
  match params (lit "font") with
  | some font =>
    if font.length < 6 then Outcome.stopped Stop.sliceOutOfRange e
    else SetFont e (toUpper1 (font.getD 5 0))
  | none => Outcome.ok e

/-- `Text`, statement 9: double width. -/
def dwStep (params : Params) (e : Printer) : Outcome :=
  if truthy (params (lit "dw")) then SetFontSize e 2 e.height else Outcome.ok e

/-- `Text`, statement 10: double height. -/
def dhStep (params : Params) (e : Printer) : Outcome :=
  if truthy (params (lit "dh")) then SetFontSize e e.width 2 else Outcome.ok e

/-- `Text`, statement 11: width. -/
def widthStep (params : Params) (e : Printer) : Outcome :=
  match params (lit "width") with
  | some width =>
    (match Atoi width with
      | some i => SetFontSize e (toUint8 i) e.height
      | none => Outcome.stopped Stop.invalidFontWidth e)
  | none => Outcome.ok e

/-- `Text`, statement 12: height. -/
def heightStep (params : Params) (e : Printer) : Outcome :=
  match params (lit "height") with
  | some height =>
    (match Atoi height with
      | some i => SetFontSize e e.width (toUint8 i)
      | none => Outcome.stopped Stop.invalidFontHeight e)
  | none => Outcome.ok e

/-- `Text`, statement 13: x position. -/
def xStep (params : Params) (e : Printer) : Outcome :=
  match params (lit "x") with
  | some x =>
    (match Atoi x with
      | some i => Outcome.ok (SendMoveX e (toUint16 i))
      | none => Outcome.stopped Stop.invalidX e)
  | none => Outcome.ok e

/-- `Text`, statement 14: y position. -/
def yStep (params : Params) (e : Printer) : Outcome :=
  match params (lit "y") with
  | some y =>
    (match Atoi y with
      | some i => Outcome.ok (SendMoveY e (toUint16 i))
      | none => Outcome.stopped Stop.invalidY e)
  | none => Outcome.ok e

/-- `Text`, last statement: replace, then write when non-empty. -/
def payloadStep (order : List (GoString × GoString)) (data : GoString) (e : Printer) : Outcome :=
  if 0 < (textReplaceIn order data).length then Outcome.ok (Write e (textReplaceIn order data))
  else Outcome.ok e

/-! ### Calls and runs -/

/-- The public methods that act on an encoder, with their arguments (`New`
builds an encoder and `SendTo` only reads `b`; `Readbyte` and `ReadString`
return a value and assign nothing). -/
inductive Call where
  | setPrintPic
  | printPic
  | openCashBox
  | moveBaseSize
  | setMoveSize (x y : Int)
  | setPrinterType (n : Int)
  | setLineSpacing (n : Int)
  | setLocation (l n : Int)
  | setReLocation (l n : Int)
  | printSplitLine (n : Int) (s : GoString)
  | barcode (s : GoString)
  | sendRightSpace (n : Int)
  | printAndFeed (i : Int)
  | barcodeHRI (n : Int)
  | barcodeHRIFontSize (n : Int)
  | barcodeHigth (n : Int)
  | writeRaw (data : GoString)
  | write (data : GoString)
  | readbyte
  | readString
  | init
  | finish
  | cut
  | linefeed (n : Int)
  | formfeedN (n : Int)
  | formfeed
  | setFont (font : GoString)
  | sendFontSize
  | setFontSize (width height : Nat)
  | sendUnderline
  | sendEmphasize
  | sendUpsidedown
  | sendRotate
  | sendReverse
  | sendSmooth
  | sendMoveX (x : Nat)
  | sendMoveY (y : Nat)
  | setUnderline (v : Nat)
  | setEmphasize (u : Nat)
  | setUpsidedown (v : Nat)
  | setRotate (v : Nat)
  | setReverse (v : Nat)
  | setSmooth (v : Nat)
  | pulse
  | setAlign (align : GoString)
  | setLang (lang : GoString)
  | text (order : List (GoString × GoString)) (params : Params) (data : GoString)
  | feed (params : Params)
  | feedAndCut (params : Params)
  | image (params : Params) (data : GoString)
  | writeNode (order : List (GoString × GoString)) (name : GoString) (params : Params)
      (data : GoString)
  | qrCode

/-- The effect of one call on the encoder (`finish` is the method `End`). -/
def exec : Call → Printer → Outcome
  | Call.setPrintPic, e => Outcome.ok (SetPrintPic e)
  | Call.printPic, e => Outcome.ok (PrintPic e)
  | Call.openCashBox, e => Outcome.ok (OpenCashBox e)
  | Call.moveBaseSize, e => Outcome.ok (MoveBaseSize e)
  | Call.setMoveSize x y, e => Outcome.ok (SetMoveSize e x y)
  | Call.setPrinterType n, e => Outcome.ok (SetPrinterType e n)
  | Call.setLineSpacing n, e => Outcome.ok (SetLineSpacing e n)
  | Call.setLocation l n, e => Outcome.ok (SetLocation e l n)
  | Call.setReLocation l n, e => Outcome.ok (SetReLocation e l n)
  | Call.printSplitLine n s, e => Outcome.ok (PrintSplitLine e n s)
  | Call.barcode s, e => Outcome.ok (Barcode e s)
  | Call.sendRightSpace n, e => Outcome.ok (SendRightSpace e n)
  | Call.printAndFeed i, e => Outcome.ok (PrintAndFeed e i)
  | Call.barcodeHRI n, e => Outcome.ok (BarcodeHRI e n)
  | Call.barcodeHRIFontSize n, e => Outcome.ok (BarcodeHRIFontSize e n)
  | Call.barcodeHigth n, e => Outcome.ok (BarcodeHigth e n)
  | Call.writeRaw data, e => Outcome.ok (WriteRaw e data)
  | Call.write data, e => Outcome.ok (Write e data)
  | Call.readbyte, e => Outcome.ok e
  | Call.readString, e => Outcome.ok e
  | Call.init, e => Outcome.ok (Init e)
  | Call.finish, e => Outcome.ok (End e)
  | Call.cut, e => Outcome.ok (Cut e)
  | Call.linefeed n, e => Outcome.ok (Linefeed e n)
  | Call.formfeedN n, e => Outcome.ok (FormfeedN e n)
  | Call.formfeed, e => Outcome.ok (Formfeed e)
  | Call.setFont font, e => SetFont e font
  | Call.sendFontSize, e => Outcome.ok (SendFontSize e)
  | Call.setFontSize width height, e => SetFontSize e width height
  | Call.sendUnderline, e => Outcome.ok (SendUnderline e)
  | Call.sendEmphasize, e => Outcome.ok (SendEmphasize e)
  | Call.sendUpsidedown, e => Outcome.ok (SendUpsidedown e)
  | Call.sendRotate, e => Outcome.ok (SendRotate e)
  | Call.sendReverse, e => Outcome.ok (SendReverse e)
  | Call.sendSmooth, e => Outcome.ok (SendSmooth e)
  | Call.sendMoveX x, e => Outcome.ok (SendMoveX e x)
  | Call.sendMoveY y, e => Outcome.ok (SendMoveY e y)
  | Call.setUnderline v, e => Outcome.ok (SetUnderline e v)
  | Call.setEmphasize u, e => Outcome.ok (SetEmphasize e u)
  | Call.setUpsidedown v, e => Outcome.ok (SetUpsidedown e v)
  | Call.setRotate v, e => Outcome.ok (SetRotate e v)
  | Call.setReverse v, e => Outcome.ok (SetReverse e v)
  | Call.setSmooth v, e => Outcome.ok (SetSmooth e v)
  | Call.pulse, e => Outcome.ok (Pulse e)
  | Call.setAlign align, e => SetAlign e align
  | Call.setLang lang, e => SetLang e lang
  | Call.text order params data, e => Text order e params data
  | Call.feed params, e => Feed e params
  | Call.feedAndCut params, e => Outcome.ok (FeedAndCut e params)
  | Call.image params data, e => Image e params data
  | Call.writeNode order name params data, e => WriteNode order e name params data
  | Call.qrCode, e => Outcome.ok (QrCode e)

/-- A sequence of calls, one after the other, as long as the run is alive. -/
def run : List Call → Printer → Outcome
  | [], e => Outcome.ok e
  | c :: cs, e => (exec c e).andThen (run cs)

/-- The calls `Init`, `SetFontSize` and `WriteNode`. -/
def Call.isDispatch : Call → Bool
  | Call.init => true
  | Call.setFontSize _ _ => true
  | Call.writeNode _ _ _ _ => true
  | _ => false

/-- The dispatches of `text` nodes. -/
def Call.isTextNode : Call → Bool
  | Call.writeNode _ name _ _ => decide (name = lit "text")
  | _ => false

/-- Append-only: both buffers of `e` are initial segments of those of `e2`. -/
def Grows (e e2 : Printer) : Prop := e.b <+: e2.b ∧ e.s <+: e2.s

/-- The encoder `e2` comes from `e` by `Write` alone: the same bytes were
appended to the text string and to the byte buffer. -/
def WroteOnly (e e2 : Printer) : Prop := ∃ seg, e2.s = e.s ++ seg ∧ e2.b = e.b ++ seg

/-- The printer-state invariant: sizes in 1..8, each toggle 0 or 1. -/
def Inv (e : Printer) : Prop :=
  1 ≤ e.width ∧ e.width ≤ 8 ∧ 1 ≤ e.height ∧ e.height ≤ 8 ∧
  (e.underline = 0 ∨ e.underline = 1) ∧ (e.emphasize = 0 ∨ e.emphasize = 1) ∧
  (e.upsidedown = 0 ∨ e.upsidedown = 1) ∧ (e.rotate = 0 ∨ e.rotate = 1) ∧
  (e.reverse = 0 ∨ e.reverse = 1) ∧ (e.smooth = 0 ∨ e.smooth = 1)

/-- The invariant holds for the encoder a returning call leaves. -/
def InvOk (o : Outcome) : Prop := ∀ e1, o = Outcome.ok e1 → Inv e1

/-- A sample run: `Init`, `SetFontSize(3, 4)`, a `feed` node, a node of
unknown name, and a `text` node with `dw=true`. -/
def sampleCalls : List Call :=
  [Call.init, Call.setFontSize 3 4,
   Call.writeNode textReplaceMap (lit "feed") noParams [],
   Call.writeNode textReplaceMap (lit "bogus") noParams [],
   Call.writeNode textReplaceMap (lit "text") (oneParam (lit "dw") (lit "true")) (lit "Hi")]

/-- Two `text` dispatches: `em=true` with payload `Hi`, then no parameters
with payload `a&amp;b`. -/
def textCalls : List Call :=
  [Call.writeNode textReplaceMap (lit "text") (oneParam (lit "em") (lit "true")) (lit "Hi"),
   Call.writeNode textReplaceMap (lit "text") noParams (lit "a&amp;b")]

/-! ### The bytes of a text node, as the specification lists them -/

/-- The alignment names, in the order of their codes 0, 1, 2. -/
def alignNames : List GoString := [lit "left", lit "center", lit "right"]

/-- A flag parameter is on when it is present with the value `true` or `1`. -/
def flagOn (v : Option GoString) : Bool := v == some (lit "true") || v == some (lit "1")

/-- The integer a parameter parses to, when it is present and parses. -/
def intOf (v : Option GoString) : Option Int := v.bind Atoi

/-- The font-size command `1D 21 p`, `p = ((w-1)<<4)|(h-1)`. -/
def sizeCmd (w h : Nat) : GoString := [0x1D, 0x21, ((w - 1) <<< 4) ||| (h - 1)]

/-- The command of a flag: `cmd` when the flag is on, nothing otherwise. -/
def flagCmd (isOn : Bool) (cmd : GoString) : GoString := if isOn then cmd else []

/-- The alignment command `1B 61 n`, when `align` is present. -/
def specAlign (params : Params) : GoString :=
  match params (lit "align") with
  | some a => [0x1B, 0x61, alignNames.indexOf a]
  | none => []

/-- The language command `1B 52 n`, when `lang` is present. -/
def specLang (params : Params) : GoString :=
  match params (lit "lang") with
  | some l => [0x1B, 0x52, langCodes.indexOf l]
  | none => []

/-- The font command `1B 4D n`, when `font` is present: 0 when the sixth
byte is `a` or `A`, 1 when it is `b` or `B`. -/
def specFont (params : Params) : GoString :=
  match params (lit "font") with
  | some f => [0x1B, 0x4D, if f.getD 5 0 = 0x61 ∨ f.getD 5 0 = 0x41 then 0 else 1]
  | none => []

/-- The width after `dw`. -/
def specWidth1 (w0 : Nat) (params : Params) : Nat :=
  if flagOn (params (lit "dw")) then 2 else w0

/-- The height after `dh`. -/
def specHeight1 (h0 : Nat) (params : Params) : Nat :=
  if flagOn (params (lit "dh")) then 2 else h0

/-- The width after `dw` and `width`. -/
def specWidth2 (w0 : Nat) (params : Params) : Nat :=
  match intOf (params (lit "width")) with
  | some i => i.toNat
  | none => specWidth1 w0 params

/-- The height after `dh` and `height`. -/
def specHeight2 (h0 : Nat) (params : Params) : Nat :=
  match intOf (params (lit "height")) with
  | some i => i.toNat
  | none => specHeight1 h0 params

/-- The size command of the `width` parameter. -/
def specWidthCmd (h0 : Nat) (params : Params) : GoString :=
  match intOf (params (lit "width")) with
  | some i => sizeCmd i.toNat (specHeight1 h0 params)
  | none => []

/-- The size command of the `height` parameter. -/
def specHeightCmd (w0 : Nat) (params : Params) : GoString :=
  match intOf (params (lit "height")) with
  | some i => sizeCmd (specWidth2 w0 params) i.toNat
  | none => []

/-- A move command `lead 24 lo hi` for a parameter that parses, the offset
cut to 16 bits, low byte first. -/
def specMove (lead : Nat) (v : Option GoString) : GoString :=
  match intOf v with
  | some i => [lead, 0x24, toUint16 i % 256, toUint16 i / 256]
  | none => []

/-- The bytes of a text node, in the order the specification gives: align,
lang, smooth, em, ul, reverse, rotate, font, dw, dh, width, height, x, y,
then the substituted payload.  `w0` and `h0` are the sizes stored before. -/
def textBytes (order : List (GoString × GoString)) (w0 h0 : Nat) (params : Params)
    (data : GoString) : GoString :=
  specAlign params ++ specLang params ++
  flagCmd (flagOn (params (lit "smooth"))) [0x1D, 0x62, 0x01] ++
  flagCmd (flagOn (params (lit "em"))) [0x1B, 0x47, 0x01] ++
  flagCmd (flagOn (params (lit "ul"))) [0x1B, 0x2D, 0x01] ++
  flagCmd (flagOn (params (lit "reverse"))) [0x1D, 0x42, 0x01] ++
  flagCmd (flagOn (params (lit "rotate"))) [0x1B, 0x52, 0x01] ++
  specFont params ++
  flagCmd (flagOn (params (lit "dw"))) (sizeCmd 2 h0) ++
  flagCmd (flagOn (params (lit "dh"))) (sizeCmd (specWidth1 w0 params) 2) ++
  specWidthCmd h0 params ++
  specHeightCmd w0 params ++
  specMove 0x1B (params (lit "x")) ++
  specMove 0x1D (params (lit "y")) ++
  textReplaceIn order data

/-- The settings after a text node: a flag that is on becomes 1, a flag that
is off or absent keeps its value. -/
def textSettings (e : Printer) (params : Params) : List Nat :=
  [specWidth2 e.width params, specHeight2 e.height params,
   if flagOn (params (lit "ul")) then 1 else e.underline,
   if flagOn (params (lit "em")) then 1 else e.emphasize,
   e.upsidedown,
   if flagOn (params (lit "rotate")) then 1 else e.rotate,
   if flagOn (params (lit "reverse")) then 1 else e.reverse,
   if flagOn (params (lit "smooth")) then 1 else e.smooth]

/-- The parameters of a text node are all valid: `align` and `lang` name an
entry of their lists, the sixth byte of `font` is one of `a A b B`, `width`
and `height` are integers in 1..8, `x` and `y` are integers. -/
def ValidText (params : Params) : Prop :=
  (∀ a, params (lit "align") = some a → a ∈ alignNames) ∧
  (∀ l, params (lit "lang") = some l → l ∈ langCodes) ∧
  (∀ f, params (lit "font") = some f → 6 ≤ f.length ∧ f.getD 5 0 ∈ [0x61, 0x41, 0x62, 0x42]) ∧
  (∀ w, params (lit "width") = some w → ∃ i : Int, Atoi w = some i ∧ 1 ≤ i ∧ i ≤ 8) ∧
  (∀ h, params (lit "height") = some h → ∃ i : Int, Atoi h = some i ∧ 1 ≤ i ∧ i ≤ 8) ∧
  (∀ x, params (lit "x") = some x → ∃ i : Int, Atoi x = some i) ∧
  (∀ y, params (lit "y") = some y → ∃ i : Int, Atoi y = some i)

/-- A text node with many parameters: centred, emphasised, `ul` switched
off, font B, double width, height 3, x = 300. -/
def richParams : Params := fun k =>
  if k = lit "align" then some (lit "center")
  else if k = lit "em" then some (lit "true")
  else if k = lit "ul" then some (lit "no")
  else if k = lit "font" then some (lit "font:b")
  else if k = lit "dw" then some (lit "1")
  else if k = lit "height" then some (lit "3")
  else if k = lit "x" then some (lit "300")
  else none

theorem write_settings (e : Printer) (data : GoString) :
    (Write e data).settings = e.settings := rfl

theorem writeRaw_settings (e : Printer) (data : GoString) :
    (WriteRaw e data).settings = e.settings := rfl

/-- The `%c` verb writes a value up to 0x7F as that one byte. -/
theorem fmtC_ascii (n : Nat) (h : n ≤ 0x7F) : fmtC (n : Int) = [n] := by
  have h2 : n ≤ 1114111 := by omega
  simp [fmtC, appendRune, h, h2]

/-- For sizes in 1..8 the `uint8` arithmetic of `SendFontSize` does not wrap,
and the parameter is at most 0x77. -/
theorem fontByte_eq : ∀ w, w < 9 → ∀ h, h < 9 → 1 ≤ w → 1 ≤ h →
    (((((w + 255) % 256) <<< 4) % 256) ||| ((h + 255) % 256)) = (((w - 1) <<< 4) ||| (h - 1))
    ∧ (((w - 1) <<< 4) ||| (h - 1)) ≤ 0x77 := by
  decide

/-- C1: for width and height in 1..8, `SetFontSize` returns, stores both
arguments, keeps the six toggles, and appends to the byte buffer exactly
`1D 21 p` with `p = ((width-1)<<4)|(height-1)`, a single byte not above 0x77. -/
theorem setFontSize_encodes (e : Printer) (width height : Nat)
    (hw : 1 ≤ width ∧ width ≤ 8) (hh : 1 ≤ height ∧ height ≤ 8) :
    ((width - 1) <<< 4) ||| (height - 1) ≤ 0x77 ∧
    ∃ e2, SetFontSize e width height = Outcome.ok e2 ∧
      e2.width = width ∧ e2.height = height ∧
      e2.underline = e.underline ∧ e2.emphasize = e.emphasize ∧
      e2.upsidedown = e.upsidedown ∧ e2.rotate = e.rotate ∧
      e2.reverse = e.reverse ∧ e2.smooth = e.smooth ∧
      e2.b = e.b ++ [0x1D, 0x21, ((width - 1) <<< 4) ||| (height - 1)] := by
  obtain ⟨hw1, hw8⟩ := hw
  obtain ⟨hh1, hh8⟩ := hh
  obtain ⟨hp, hle⟩ := fontByte_eq width (by omega) height (by omega) hw1 hh1
  have hcond : 0 < width ∧ 0 < height ∧ width ≤ 8 ∧ height ≤ 8 := by omega
  refine ⟨hle, SendFontSize { e with width := width, height := height }, ?_,
    rfl, rfl, rfl, rfl, rfl, rfl, rfl, rfl, ?_⟩
  · simp only [SetFontSize, hcond, and_self, if_true]
  · show e.b ++ ([0x1D, 0x21] ++
      fmtC (((((width + 255) % 256) <<< 4) % 256 ||| (height + 255) % 256 : Nat) : Int)) = _
    rw [hp, fmtC_ascii _ (Nat.le_trans hle (by decide))]
    rfl

theorem setFontSize_encodes_witness :
    ((8 - 1) <<< 4) ||| (8 - 1) ≤ 0x77 ∧
    ∃ e2, SetFontSize New 8 8 = Outcome.ok e2 ∧
      e2.width = 8 ∧ e2.height = 8 ∧
      e2.underline = New.underline ∧ e2.emphasize = New.emphasize ∧
      e2.upsidedown = New.upsidedown ∧ e2.rotate = New.rotate ∧
      e2.reverse = New.reverse ∧ e2.smooth = New.smooth ∧
      e2.b = New.b ++ [0x1D, 0x21, ((8 - 1) <<< 4) ||| (8 - 1)] :=
  setFontSize_encodes New 8 8 (by decide) (by decide)

/-- C2: when width or height is 0 or above 8, `SetFontSize` stops the run
with the invalid-font-size error and the encoder (width, height, toggles and
both buffers) is as it was before the call. -/
theorem setFontSize_rejects (e : Printer) (width height : Nat)
    (h : width = 0 ∨ height = 0 ∨ 8 < width ∨ 8 < height) :
    SetFontSize e width height = Outcome.stopped Stop.invalidFontSize e := by
  have hn : ¬ (0 < width ∧ 0 < height ∧ width ≤ 8 ∧ height ≤ 8) := by omega
  simp [SetFontSize, hn]

theorem setFontSize_rejects_witness :
    SetFontSize toggled 9 1 = Outcome.stopped Stop.invalidFontSize toggled :=
  setFontSize_rejects toggled 9 1 (by decide)

/-- C3: for a 16-bit `x`, `SendMoveX` appends to the byte buffer exactly
`1B 24 (x mod 256) (x div 256)`, the two bytes give `x` back low byte first,
and the settings are unchanged. -/
theorem sendMoveX_bytes (e : Printer) (x : Nat) (hx : x < 65536) :
    (SendMoveX e x).b = e.b ++ [0x1B, 0x24, x % 256, x / 256] ∧
    x % 256 < 256 ∧ x / 256 < 256 ∧ x % 256 + 256 * (x / 256) = x ∧
    (SendMoveX e x).settings = e.settings := by
  have h1 : x / 256 < 256 := by omega
  refine ⟨?_, by omega, h1, by omega, rfl⟩
  simp [SendMoveX, Write, WriteRaw, Nat.mod_eq_of_lt h1]

theorem sendMoveX_bytes_witness :
    (SendMoveX New 4660).b = New.b ++ [0x1B, 0x24, 4660 % 256, 4660 / 256] ∧
    4660 % 256 < 256 ∧ 4660 / 256 < 256 ∧ 4660 % 256 + 256 * (4660 / 256) = 4660 ∧
    (SendMoveX New 4660).settings = New.settings :=
  sendMoveX_bytes New 4660 (by decide)

theorem andThen_ok {o : Outcome} {f : Printer → Outcome} {e2 : Printer}
    (h : o.andThen f = Outcome.ok e2) : ∃ e1, o = Outcome.ok e1 ∧ f e1 = Outcome.ok e2 := by
  cases o with
  | ok e1 => exact ⟨e1, rfl, h⟩
  | stopped w e1 => simp [Outcome.andThen] at h

theorem feed_ok_settings (e e2 : Printer) (params : Params)
    (h : Feed e params = Outcome.ok e2) : e2.settings = defaults := by
  unfold Feed at h
  obtain ⟨e1, -, h⟩ := andThen_ok h
  obtain ⟨e3, -, h⟩ := andThen_ok h
  simp only [Outcome.ok.injEq] at h
  rw [← h]; rfl

theorem writeNode_feed (order : List (GoString × GoString)) (e : Printer) (params : Params)
    (data : GoString) : WriteNode order e (lit "feed") params data = Feed e params := by
  have h1 : (lit "feed" = lit "text") = False := by decide
  simp only [WriteNode, h1, if_false, if_true]

/-- C4: whatever the encoder held before and whatever the parameters, when
the dispatch of a `feed` node returns, width and height are 1 and the six
toggles are 0; with the empty parameter map the dispatch always returns. -/
theorem feed_resets (order : List (GoString × GoString)) (e : Printer) (data : GoString) :
    (∀ params e2, WriteNode order e (lit "feed") params data = Outcome.ok e2 →
      e2.width = 1 ∧ e2.height = 1 ∧ e2.underline = 0 ∧ e2.emphasize = 0 ∧
      e2.upsidedown = 0 ∧ e2.rotate = 0 ∧ e2.reverse = 0 ∧ e2.smooth = 0) ∧
    ∃ e2, WriteNode order e (lit "feed") noParams data = Outcome.ok e2 := by
  constructor
  · intro params e2 h
    rw [writeNode_feed] at h
    have hs := feed_ok_settings e e2 params h
    simp only [Printer.settings, defaults, List.cons.injEq, and_true] at hs
    exact hs
  · rw [writeNode_feed]
    exact ⟨_, rfl⟩

theorem feed_resets_witness :
    ∃ e2, WriteNode textReplaceMap toggled (lit "feed") noParams [] = Outcome.ok e2 ∧
      (e2.width = 1 ∧ e2.height = 1 ∧ e2.underline = 0 ∧ e2.emphasize = 0 ∧
       e2.upsidedown = 0 ∧ e2.rotate = 0 ∧ e2.reverse = 0 ∧ e2.smooth = 0) :=
  let ⟨e2, h⟩ := (feed_resets textReplaceMap toggled []).2
  ⟨e2, h, (feed_resets textReplaceMap toggled []).1 noParams e2 h⟩

/-- C5: for every prior encoder, `Feed` with the empty parameter map appends
the linefeed `1B 64 01`, the seven default-value commands, and then the
underline command `1B 2D 00` a second time: 27 bytes, not 24. -/
theorem feed_empty_bytes (e : Printer) :
    ∃ e2, Feed e noParams = Outcome.ok e2 ∧
      e2.b = e.b ++ ([0x1B, 0x64, 0x01,
                      0x1B, 0x47, 0x00, 0x1B, 0x52, 0x00, 0x1D, 0x62, 0x00, 0x1D, 0x42, 0x00,
                      0x1B, 0x2D, 0x00, 0x1B, 0x7B, 0x00, 0x1D, 0x21, 0x00] ++
                     [0x1B, 0x2D, 0x00]) ∧
      e2.b.length = e.b.length + 27 := by
  refine ⟨_, rfl, ?_, ?_⟩ <;>
    simp [Linefeed, FormfeedN, reset, SendEmphasize, SendRotate, SendSmooth, SendReverse,
      SendUnderline, SendUpsidedown, SendFontSize, Write, WriteRaw, fmtC, appendRune]

/-- Where `old` does not occur, `strings.Replace` returns its input. -/
theorem replaceGo_absent (old new : GoString) :
    ∀ s : GoString, ¬ old <:+: s → replaceGo old new 0 s = s
  | [], _ => rfl
  | c :: s, h => by
    have hp : old.isPrefixOf (c :: s) = false := by
      cases hb : old.isPrefixOf (c :: s) with
      | false => rfl
      | true => exact absurd (List.isPrefixOf_iff_prefix.mp hb).isInfix h
    have ht : ¬ old <:+: s := fun hi => h (hi.trans (List.suffix_cons c s).isInfix)
    simp [replaceGo, hp, replaceGo_absent old new s ht]

theorem textReplaceIn_absent (data : GoString) :
    ∀ order : List (GoString × GoString), (∀ kv ∈ order, ¬ kv.1 <:+: data) →
      textReplaceIn order data = data
  | [], _ => rfl
  | kv :: rest, h => by
    have h1 : Replace data kv.1 kv.2 = data :=
      replaceGo_absent kv.1 kv.2 data (h kv (List.mem_cons_self kv rest))
    have h2 := textReplaceIn_absent data rest fun x hx => h x (List.mem_cons_of_mem kv hx)
    simp only [textReplaceIn, List.foldl_cons, h1]
    exact h2

theorem stageAmp_step : ∀ kv ∈ textReplaceMap, ∀ a : Bool,
    Replace (stageAmp a) kv.1 kv.2 = stageAmp (a || decide (kv = ampEntry)) := by
  decide

theorem stageTag_step : ∀ kv ∈ textReplaceMap, ∀ a b : Bool,
    Replace (stageTag a b) kv.1 kv.2 =
      stageTag (a || decide (kv = ltEntry)) (b || decide (kv = gtEntry)) := by
  decide

theorem stageAmp_fold : ∀ (l : List (GoString × GoString)) (a : Bool),
    (∀ kv ∈ l, kv ∈ textReplaceMap) →
      textReplaceIn l (stageAmp a) = stageAmp (a || decide (ampEntry ∈ l))
  | [], a, _ => by simp [textReplaceIn]
  | kv :: rest, a, h => by
    have h1 := stageAmp_step kv (h kv (List.mem_cons_self kv rest)) a
    have h2 := stageAmp_fold rest (a || decide (kv = ampEntry))
      fun x hx => h x (List.mem_cons_of_mem kv hx)
    simp only [textReplaceIn, List.foldl_cons, h1] at h2 ⊢
    rw [h2]
    congr 1
    by_cases hk : kv = ampEntry <;> by_cases hm : ampEntry ∈ rest <;>
      simp [hk, hm, eq_comm]

theorem stageTag_fold : ∀ (l : List (GoString × GoString)) (a b : Bool),
    (∀ kv ∈ l, kv ∈ textReplaceMap) →
      textReplaceIn l (stageTag a b) =
        stageTag (a || decide (ltEntry ∈ l)) (b || decide (gtEntry ∈ l))
  | [], a, b, _ => by simp [textReplaceIn]
  | kv :: rest, a, b, h => by
    have h1 := stageTag_step kv (h kv (List.mem_cons_self kv rest)) a b
    have h2 := stageTag_fold rest (a || decide (kv = ltEntry)) (b || decide (kv = gtEntry))
      fun x hx => h x (List.mem_cons_of_mem kv hx)
    simp only [textReplaceIn, List.foldl_cons, h1] at h2 ⊢
    rw [h2]
    congr 1
    · by_cases hk : kv = ltEntry <;> by_cases hm : ltEntry ∈ rest <;>
        simp [hk, hm, eq_comm]
    · by_cases hk : kv = gtEntry <;> by_cases hm : gtEntry ∈ rest <;>
        simp [hk, hm, eq_comm]

/-- C6: the traversal that visits the table in reverse source order is one a
`range` may take, and on `&amp;lt;` it decodes twice, giving `<`; the source
order gives `&lt;`. -/
theorem textReplace_double_decodes :
    Traversal textReplaceMap.reverse ∧
    textReplaceIn textReplaceMap.reverse (lit "&amp;lt;") = lit "<" ∧
    textReplaceIn textReplaceMap (lit "&amp;lt;") = lit "&lt;" :=
  ⟨List.reverse_perm textReplaceMap, by decide, by decide⟩

/-- C7: for every traversal order of the table, a text in which no table
entity occurs is returned unchanged, `A&amp;B` becomes `A&B`, and
`&lt;tag&gt;` becomes `<tag>`. -/
theorem textReplace_spec_examples (order : List (GoString × GoString))
    (hord : Traversal order) :
    (∀ data : GoString, (∀ kv ∈ textReplaceMap, ¬ kv.1 <:+: data) →
      textReplaceIn order data = data) ∧
    textReplaceIn order (lit "A&amp;B") = lit "A&B" ∧
    textReplaceIn order (lit "&lt;tag&gt;") = lit "<tag>" := by
  have hmem : ∀ kv, kv ∈ order ↔ kv ∈ textReplaceMap := fun kv => hord.mem_iff
  refine ⟨fun data h => textReplaceIn_absent data order fun kv hkv => h kv ((hmem kv).mp hkv),
    ?_, ?_⟩
  · have h := stageAmp_fold order false fun kv hkv => (hmem kv).mp hkv
    have ha : ampEntry ∈ order := (hmem _).mpr (by decide)
    simp only [ha, decide_True, Bool.or_true] at h
    exact h
  · have h := stageTag_fold order false false fun kv hkv => (hmem kv).mp hkv
    have hl : ltEntry ∈ order := (hmem _).mpr (by decide)
    have hg : gtEntry ∈ order := (hmem _).mpr (by decide)
    simp only [hl, hg, decide_True, Bool.or_true] at h
    exact h

theorem textReplace_spec_examples_witness :
    (∀ kv ∈ textReplaceMap, ¬ kv.1 <:+: lit "Q&A &amp fish & chips;") ∧
    textReplaceIn textReplaceMap.reverse (lit "Q&A &amp fish & chips;") =
      lit "Q&A &amp fish & chips;" ∧
    textReplaceIn textReplaceMap.reverse (lit "A&amp;B") = lit "A&B" ∧
    textReplaceIn textReplaceMap.reverse (lit "&lt;tag&gt;") = lit "<tag>" :=
  have h := textReplace_spec_examples textReplaceMap.reverse (List.reverse_perm textReplaceMap)
  ⟨by decide, h.1 _ (by decide), h.2.1, h.2.2⟩

/-- Every six-bit value is read back from its character. -/
theorem decodeMap_encodeSextet_lt : ∀ n, n < 64 → decodeMap (encodeSextet n) = some n := by
  decide

theorem decodeMap_encodeSextet (n : Nat) :
    decodeMap (encodeSextet (n % 64)) = some (n % 64) :=
  decodeMap_encodeSextet_lt (n % 64) (Nat.mod_lt n (by decide))

theorem decodeMap_pad : decodeMap 61 = none := by decide

theorem quantumBytes_three (a b c : Nat) (ha : a < 256) (hb : b < 256) (hc : c < 256) :
    quantumBytes [(a * 65536 + b * 256 + c) / 262144 % 64, (a * 65536 + b * 256 + c) / 4096 % 64,
      (a * 65536 + b * 256 + c) / 64 % 64, (a * 65536 + b * 256 + c) % 64] = [a, b, c] := by
  simp only [quantumBytes, List.getD_cons_zero, List.getD_cons_succ, List.length_cons,
    List.length_nil, List.take_succ_cons, List.take_zero, Nat.add_one_sub_one, Nat.reduceAdd,
    List.cons.injEq, and_true]
  refine ⟨?_, ?_, ?_⟩ <;> omega

theorem quantumBytes_two (a b : Nat) (ha : a < 256) (hb : b < 256) :
    quantumBytes [(a * 65536 + b * 256) / 262144 % 64, (a * 65536 + b * 256) / 4096 % 64,
      (a * 65536 + b * 256) / 64 % 64] = [a, b] := by
  simp only [quantumBytes, List.getD_cons_zero, List.getD_cons_succ, List.getD_nil,
    List.length_cons, List.length_nil, List.take_succ_cons, List.take_zero, Nat.add_one_sub_one,
    Nat.reduceAdd, List.cons.injEq, and_true]
  refine ⟨?_, ?_⟩ <;> omega

theorem quantumBytes_one (a : Nat) (ha : a < 256) :
    quantumBytes [(a * 65536) / 262144 % 64, (a * 65536) / 4096 % 64] = [a] := by
  simp only [quantumBytes, List.getD_cons_zero, List.getD_cons_succ, List.getD_nil,
    List.length_cons, List.length_nil, List.take_succ_cons, List.take_zero, Nat.add_one_sub_one,
    Nat.reduceAdd, List.cons.injEq, and_true]
  omega

/-- Decoding what `EncodeToString` wrote gives the bytes back. -/
theorem decodeFrom_b64Encode : ∀ d : List Nat, (∀ x ∈ d, x < 256) →
    decodeFrom (b64Encode d) [] = some d
  | [], _ => rfl
  | [a], h => by
    have ha : a < 256 := h a (by simp)
    simp [b64Encode, decodeFrom, decodeMap_encodeSextet, decodeMap_pad, skipNewlines,
      quantumBytes_one a ha]
  | [a, b], h => by
    have ha : a < 256 := h a (by simp)
    have hb : b < 256 := h b (by simp)
    simp [b64Encode, decodeFrom, decodeMap_encodeSextet, decodeMap_pad, skipNewlines,
      quantumBytes_two a b ha hb]
  | a :: b :: c :: rest, h => by
    have ha : a < 256 := h a (by simp)
    have hb : b < 256 := h b (by simp)
    have hc : c < 256 := h c (by simp)
    have ih := decodeFrom_b64Encode rest fun x hx => h x (by simp [hx])
    simp [b64Encode, decodeFrom, decodeMap_encodeSextet, quantumBytes_three a b c ha hb hc, ih]

/-- C9: when `len(payload)+2` fits 16 bits, `gSend` appends to the byte
buffer exactly `1B 28 4C lo hi mode function` and the payload as given, which
is `len(payload)+7` bytes, and `lo + 256*hi = len(payload)+2`. -/
theorem gSend_frame (e : Printer) (m fn : Nat) (payload : GoString)
    (hlen : payload.length + 2 ≤ 65535) :
    (gSend e m fn payload).b =
      e.b ++ [0x1B, 0x28, 0x4C] ++
        [(payload.length + 2) % 256, (payload.length + 2) / 256, m, fn] ++ payload ∧
    (gSend e m fn payload).b.length = e.b.length + (payload.length + 7) ∧
    (payload.length + 2) % 256 < 256 ∧ (payload.length + 2) / 256 < 256 ∧
    (payload.length + 2) % 256 + 256 * ((payload.length + 2) / 256) = payload.length + 2 := by
  have h1 : (payload.length + 2) / 256 < 256 := by omega
  have hb : (gSend e m fn payload).b =
      e.b ++ [0x1B, 0x28, 0x4C] ++
        [(payload.length + 2) % 256, (payload.length + 2) / 256, m, fn] ++ payload := by
    simp [gSend, Write, WriteRaw, Nat.mod_eq_of_lt h1]
  refine ⟨hb, ?_, by omega, h1, by omega⟩
  rw [hb]; simp

theorem gSend_frame_witness :
    (gSend New 0x30 0x70 [1, 2, 3]).b =
      New.b ++ [0x1B, 0x28, 0x4C] ++
        [([1, 2, 3].length + 2) % 256, ([1, 2, 3].length + 2) / 256, 0x30, 0x70] ++ [1, 2, 3] ∧
    (gSend New 0x30 0x70 [1, 2, 3]).b.length = New.b.length + ([1, 2, 3].length + 7) ∧
    ([1, 2, 3].length + 2) % 256 < 256 ∧ ([1, 2, 3].length + 2) / 256 < 256 ∧
    ([1, 2, 3].length + 2) % 256 + 256 * (([1, 2, 3].length + 2) / 256) =
      [1, 2, 3].length + 2 :=
  gSend_frame New 0x30 0x70 [1, 2, 3] (by decide)

/-- With no `align` parameter and both sizes parsing, `Image` is decided by
the base64 decoder alone. -/
theorem image_unfold (e : Printer) (params : Params) (data w h : GoString) (iw ih : Int)
    (hal : params (lit "align") = none)
    (hw : params (lit "width") = some w) (hh : params (lit "height") = some h)
    (hiw : Atoi w = some iw) (hih : Atoi h = some ih) :
    Image e params data =
      match DecodeString data with
      | none => Outcome.stopped Stop.badBase64 e
      | some dec =>
        Outcome.ok (gSend (gSend e 0x30 0x70 ([0x30, 0x01, 0x01, 0x31] ++ dec)) 0x30 0x32 []) := by
  simp only [Image, hal, hw, hh, hiw, hih, Outcome.andThen]

theorem gSend_settings (e : Printer) (m fn : Nat) (data : GoString) :
    (gSend e m fn data).settings = e.settings := rfl

theorem writeNode_image (order : List (GoString × GoString)) (e : Printer) (params : Params)
    (data : GoString) : WriteNode order e (lit "image") params data = Image e params data := by
  have h1 : (lit "image" = lit "text") = False := by decide
  have h2 : (lit "image" = lit "feed") = False := by decide
  have h3 : (lit "image" = lit "cut") = False := by decide
  have h4 : (lit "image" = lit "pulse") = False := by decide
  simp only [WriteNode, h1, h2, h3, h4, if_false, if_true]

/-- C8: an image node with no `align`, sizes that parse, and the base64
text of the bytes `d` (at most 65529 of them) appends exactly the block
`1B 28 4C lo hi '0' 'p' 30 01 01 31 d` with `lo + 256*hi = len(d)+6`, then
`1B 28 4C 02 00 '0' '2'`, and leaves the settings as they were. -/
theorem image_two_blocks (order : List (GoString × GoString)) (e : Printer) (params : Params)
    (d w h : GoString) (iw ih : Int)
    (hal : params (lit "align") = none)
    (hw : params (lit "width") = some w) (hh : params (lit "height") = some h)
    (hiw : Atoi w = some iw) (hih : Atoi h = some ih)
    (hd : ∀ x ∈ d, x < 256) (hlen : d.length ≤ 65529) :
    ∃ e2, WriteNode order e (lit "image") params (b64Encode d) = Outcome.ok e2 ∧
      e2.b = e.b ++ [0x1B, 0x28, 0x4C] ++ [(d.length + 6) % 256, (d.length + 6) / 256] ++
          [0x30, 0x70] ++ [0x30, 0x01, 0x01, 0x31] ++ d ++
          [0x1B, 0x28, 0x4C, 0x02, 0x00, 0x30, 0x32] ∧
      (d.length + 6) % 256 + 256 * ((d.length + 6) / 256) = d.length + 6 ∧
      (d.length + 6) / 256 < 256 ∧
      e2.settings = e.settings := by
  have hdec : DecodeString (b64Encode d) = some d := decodeFrom_b64Encode d hd
  have hhi : (d.length + 6) / 256 < 256 := by omega
  have himg : Image e params (b64Encode d) =
      Outcome.ok (gSend (gSend e 0x30 0x70 ([0x30, 0x01, 0x01, 0x31] ++ d)) 0x30 0x32 []) := by
    rw [image_unfold e params (b64Encode d) w h iw ih hal hw hh hiw hih, hdec]
  refine ⟨_, (writeNode_image order e params (b64Encode d)).trans himg, ?_, by omega, hhi,
    gSend_settings _ _ _ _ |>.trans (gSend_settings _ _ _ _)⟩
  simp [gSend, Write, WriteRaw, Nat.mod_eq_of_lt hhi]

theorem image_two_blocks_witness :
    ∃ e2, WriteNode textReplaceMap toggled (lit "image") sizeParams (lit "QUI=") = Outcome.ok e2 ∧
      e2.b = toggled.b ++ [0x1B, 0x28, 0x4C] ++ [8, 0] ++
          [0x30, 0x70] ++ [0x30, 0x01, 0x01, 0x31] ++ [0x41, 0x42] ++
          [0x1B, 0x28, 0x4C, 0x02, 0x00, 0x30, 0x32] ∧
      (2 + 6) % 256 + 256 * ((2 + 6) / 256) = 2 + 6 ∧
      (2 + 6) / 256 < 256 ∧
      e2.settings = toggled.settings :=
  image_two_blocks textReplaceMap toggled sizeParams (lit "AB") (lit "100") (lit "50") 100 50
    (by decide) (by decide) (by decide) (by decide) (by decide) (by decide) (by decide)

/-- C10, as stated, fails on the empty payload: with sizes that parse and an
empty payload `Image` does not fail, so failure is not equivalent to the
four listed conditions (the third, an empty payload, holds here). -/
theorem image_empty_payload_accepted :
    ¬ ((Image New sizeParams []).failed = true ↔
        ((sizeParams (lit "width")).bind Atoi = none ∨
         (sizeParams (lit "height")).bind Atoi = none ∨
         ([] : GoString) = [] ∨
         DecodeString [] = none)) := by
  decide

/-- C10, amended: with no `align` parameter, `Image` fails exactly when the
width is missing or does not parse, the height is missing or does not parse,
or the payload is not valid standard base64; and when it fails the encoder,
with both buffers, is as it was before the call. -/
theorem image_fails_iff (e : Printer) (params : Params) (data : GoString)
    (hal : params (lit "align") = none) :
    ((Image e params data).failed = true ↔
        ((params (lit "width")).bind Atoi = none ∨
         (params (lit "height")).bind Atoi = none ∨
         DecodeString data = none)) ∧
    ((Image e params data).failed = true → (Image e params data).printer = e) := by
  cases hw : params (lit "width") with
  | none => simp [Image, hal, hw, Outcome.andThen, Outcome.failed, Outcome.printer]
  | some w =>
    cases hh : params (lit "height") with
    | none => simp [Image, hal, hw, hh, Outcome.andThen, Outcome.failed, Outcome.printer]
    | some h =>
      cases hiw : Atoi w with
      | none => simp [Image, hal, hw, hh, hiw, Outcome.andThen, Outcome.failed, Outcome.printer]
      | some iw =>
        cases hih : Atoi h with
        | none =>
          simp [Image, hal, hw, hh, hiw, hih, Outcome.andThen, Outcome.failed, Outcome.printer]
        | some ih =>
          cases hd : DecodeString data with
          | none =>
            simp [Image, hal, hw, hh, hiw, hih, hd, Outcome.andThen, Outcome.failed,
              Outcome.printer]
          | some dec =>
            simp [Image, hal, hw, hh, hiw, hih, hd, Outcome.andThen, Outcome.failed]

theorem image_fails_iff_witness :
    ((Image toggled sizeParams (lit "QUI")).failed = true ↔
        ((sizeParams (lit "width")).bind Atoi = none ∨
         (sizeParams (lit "height")).bind Atoi = none ∨
         DecodeString (lit "QUI") = none)) ∧
    ((Image toggled sizeParams (lit "QUI")).failed = true →
      (Image toggled sizeParams (lit "QUI")).printer = toggled) :=
  image_fails_iff toggled sizeParams (lit "QUI") (by decide)

theorem writeNode_cut (order : List (GoString × GoString)) (e : Printer) (params : Params)
    (data : GoString) :
    WriteNode order e (lit "cut") params data = Outcome.ok (FeedAndCut e params) := by
  have h1 : (lit "cut" = lit "text") = False := by decide
  have h2 : (lit "cut" = lit "feed") = False := by decide
  simp only [WriteNode, h1, h2, if_false, if_true]

/-- C11: the dispatch of a `cut` node always returns; it appends `1B 64 01`
and then `1D 56 41 30` when the `type` parameter is `feed`, only `1D 56 41 30`
otherwise, and leaves the settings as they were. -/
theorem cut_bytes (order : List (GoString × GoString)) (e : Printer) (params : Params)
    (data : GoString) :
    ∃ e2, WriteNode order e (lit "cut") params data = Outcome.ok e2 ∧
      e2.b = e.b ++ (if params (lit "type") = some (lit "feed")
                      then [0x1B, 0x64, 0x01, 0x1D, 0x56, 0x41, 0x30]
                      else [0x1D, 0x56, 0x41, 0x30]) ∧
      e2.settings = e.settings := by
  refine ⟨FeedAndCut e params, writeNode_cut order e params data, ?_, ?_⟩
  · by_cases h : params (lit "type") = some (lit "feed") <;>
      simp [FeedAndCut, h, Formfeed, FormfeedN, Cut, Write, WriteRaw, fmtC, appendRune]
  · by_cases h : params (lit "type") = some (lit "feed") <;>
      simp [FeedAndCut, h, Formfeed, FormfeedN, Cut, Write, WriteRaw, Printer.settings]

/-- C12: a node whose name is none of `text`, `feed`, `cut`, `pulse`, `image`
is dispatched without error and leaves the encoder, both buffers and all
settings, exactly as it was. -/
theorem unknown_node_ignored (order : List (GoString × GoString)) (e : Printer)
    (name : GoString) (params : Params) (data : GoString)
    (h1 : name ≠ lit "text") (h2 : name ≠ lit "feed") (h3 : name ≠ lit "cut")
    (h4 : name ≠ lit "pulse") (h5 : name ≠ lit "image") :
    WriteNode order e name params data = Outcome.ok e := by
  simp only [WriteNode, h1, h2, h3, h4, h5, if_false]

theorem unknown_node_ignored_witness :
    WriteNode textReplaceMap toggled (lit "bogus") sizeParams (lit "QUI=") = Outcome.ok toggled :=
  unknown_node_ignored textReplaceMap toggled (lit "bogus") sizeParams (lit "QUI=")
    (by decide) (by decide) (by decide) (by decide) (by decide)

/-- C17: `BarcodeHigth` formats its argument with `%c`, so 127 is written as
the one byte `7F`, but 128 is written as `C2 80` and 200 as `C3 88`: four
bytes are appended, not `1D 68 n`. -/
theorem barcodeHigth_above_127 (e : Printer) :
    (BarcodeHigth e 127).b = e.b ++ [0x1D, 0x68, 0x7F] ∧
    (BarcodeHigth e 128).b = e.b ++ [0x1D, 0x68, 0xC2, 0x80] ∧
    (BarcodeHigth e 200).b = e.b ++ [0x1D, 0x68, 0xC3, 0x88] ∧
    (BarcodeHigth e 200).b ≠ e.b ++ [0x1D, 0x68, 200] := by
  have h127 : fmtC 127 = [0x7F] := by decide
  have h128 : fmtC 128 = [0xC2, 0x80] := by decide
  have h200 : fmtC 200 = [0xC3, 0x88] := by decide
  simp [BarcodeHigth, Write, WriteRaw, h127, h128, h200]

theorem oneParam_self (k v : GoString) : oneParam k v k = some v := by
  simp [oneParam]

theorem oneParam_other (k v q : GoString) (h : q ≠ k) : oneParam k v q = none := by
  simp [oneParam, h]

theorem truthy_none : truthy none = false := rfl

theorem writeNode_text (order : List (GoString × GoString)) (e : Printer) (params : Params)
    (data : GoString) :
    WriteNode order e (lit "text") params data = Text order e params data := by
  simp only [WriteNode, if_true]

theorem textReplaceIn_nil : ∀ order : List (GoString × GoString), textReplaceIn order [] = []
  | [] => rfl
  | kv :: rest => by
    have h := textReplaceIn_nil rest
    simp only [textReplaceIn, List.foldl_cons, Replace, replaceGo] at h ⊢
    exact h

theorem text_chain (order : List (GoString × GoString)) (e : Printer) (params : Params)
    (data : GoString) :
    Text order e params data =
      (alignStep params e).andThen fun e =>
      (langStep params e).andThen fun e =>
      (fontStep params (flagsStep params e)).andThen fun e =>
      (dwStep params e).andThen fun e =>
      (dhStep params e).andThen fun e =>
      (widthStep params e).andThen fun e =>
      (heightStep params e).andThen fun e =>
      (xStep params e).andThen fun e =>
      (yStep params e).andThen fun e =>
      payloadStep order data e := rfl

theorem andThen_ok_eq (e : Printer) (f : Printer → Outcome) :
    (Outcome.ok e).andThen f = f e := rfl

theorem andThen_stopped_eq (w : Stop) (e : Printer) (f : Printer → Outcome) :
    (Outcome.stopped w e).andThen f = Outcome.stopped w e := rfl

theorem alignStep_absent (params : Params) (e : Printer) (h : params (lit "align") = none) :
    alignStep params e = Outcome.ok e := by
  simp only [alignStep, h]

theorem langStep_absent (params : Params) (e : Printer) (h : params (lit "lang") = none) :
    langStep params e = Outcome.ok e := by
  simp only [langStep, h]

theorem flagsStep_absent (params : Params) (e : Printer)
    (h1 : params (lit "smooth") = none) (h2 : params (lit "em") = none)
    (h3 : params (lit "ul") = none) (h4 : params (lit "reverse") = none)
    (h5 : params (lit "rotate") = none) : flagsStep params e = e := by
  simp only [flagsStep, h1, h2, h3, h4, h5, truthy_none, Bool.false_eq_true, if_false]


theorem dwStep_absent (params : Params) (e : Printer) (h : params (lit "dw") = none) :
    dwStep params e = Outcome.ok e := by
  simp only [dwStep, h, truthy_none, Bool.false_eq_true, if_false]

theorem dhStep_absent (params : Params) (e : Printer) (h : params (lit "dh") = none) :
    dhStep params e = Outcome.ok e := by
  simp only [dhStep, h, truthy_none, Bool.false_eq_true, if_false]

theorem fontStep_absent (params : Params) (e : Printer) (h : params (lit "font") = none) :
    fontStep params e = Outcome.ok e := by
  simp only [fontStep, h]

theorem widthStep_absent (params : Params) (e : Printer) (h : params (lit "width") = none) :
    widthStep params e = Outcome.ok e := by
  simp only [widthStep, h]

theorem heightStep_absent (params : Params) (e : Printer) (h : params (lit "height") = none) :
    heightStep params e = Outcome.ok e := by
  simp only [heightStep, h]

theorem xStep_absent (params : Params) (e : Printer) (h : params (lit "x") = none) :
    xStep params e = Outcome.ok e := by
  simp only [xStep, h]

theorem yStep_absent (params : Params) (e : Printer) (h : params (lit "y") = none) :
    yStep params e = Outcome.ok e := by
  simp only [yStep, h]

/-- A text node whose only parameter is `font` is decided by the font
statement. -/
theorem text_fontOnly (order : List (GoString × GoString)) (e : Printer) (f data : GoString) :
    Text order e (oneParam (lit "font") f) data =
      (fontStep (oneParam (lit "font") f) e).andThen fun e => payloadStep order data e := by
  have hk : ∀ q, q ≠ lit "font" → oneParam (lit "font") f q = none :=
    fun q h => oneParam_other _ _ q h
  rw [text_chain, alignStep_absent _ _ (hk _ (by decide)), andThen_ok_eq,
    langStep_absent _ _ (hk _ (by decide)), andThen_ok_eq,
    flagsStep_absent _ _ (hk _ (by decide)) (hk _ (by decide)) (hk _ (by decide))
      (hk _ (by decide)) (hk _ (by decide))]
  cases fontStep (oneParam (lit "font") f) e with
  | stopped w e1 => rfl
  | ok e1 =>
    rw [andThen_ok_eq, andThen_ok_eq, dwStep_absent _ _ (hk _ (by decide)), andThen_ok_eq,
      dhStep_absent _ _ (hk _ (by decide)), andThen_ok_eq,
      widthStep_absent _ _ (hk _ (by decide)), andThen_ok_eq,
      heightStep_absent _ _ (hk _ (by decide)), andThen_ok_eq,
      xStep_absent _ _ (hk _ (by decide)), andThen_ok_eq,
      yStep_absent _ _ (hk _ (by decide)), andThen_ok_eq]

/-- C18: a `font` parameter shorter than six bytes (here `A`, and the empty
string) stops the dispatch with the run-time error of the slice `font[5:6]`,
before `SetFont` is reached; the invalid-font error is raised only for a
parameter of six bytes or more (here `font:C`).  The encoder is untouched in
each case. -/
theorem text_short_font_slice_error (order : List (GoString × GoString)) (e : Printer)
    (data : GoString) :
    WriteNode order e (lit "text") (oneParam (lit "font") (lit "A")) data =
      Outcome.stopped Stop.sliceOutOfRange e ∧
    WriteNode order e (lit "text") (oneParam (lit "font") []) data =
      Outcome.stopped Stop.sliceOutOfRange e ∧
    WriteNode order e (lit "text") (oneParam (lit "font") (lit "font:C")) data =
      Outcome.stopped Stop.invalidFont e := by
  refine ⟨?_, ?_, ?_⟩
  · have h : (lit "A").length < 6 := by decide
    rw [writeNode_text, text_fontOnly]
    simp only [fontStep, oneParam_self, h, if_true, andThen_stopped_eq]
  · have h : ([] : GoString).length < 6 := by decide
    rw [writeNode_text, text_fontOnly]
    simp only [fontStep, oneParam_self, h, if_true, andThen_stopped_eq]
  · have h : ¬ (lit "font:C").length < 6 := by decide
    have ha : (toUpper1 ((lit "font:C").getD 5 0) = lit "A") = False := by decide
    have hb : (toUpper1 ((lit "font:C").getD 5 0) = lit "B") = False := by decide
    rw [writeNode_text, text_fontOnly]
    simp only [fontStep, oneParam_self, h, if_false, SetFont, ha, hb, andThen_stopped_eq]

theorem langCode_langCodes : ∀ i, i < 10 → langCode (langCodes.getD i []) = some (i : Int) := by
  decide

/-- C19: on an encoder of width 3, the text node with `width=257` is
accepted: `uint8(257)` is 1, so the width becomes 1 and `1D 21 00` is
appended; the same happens for `width=-255`. -/
theorem text_width_wraps :
    tripled.width = 3 ∧
    (∃ e2, WriteNode textReplaceMap tripled (lit "text") (oneParam (lit "width") (lit "257")) []
        = Outcome.ok e2 ∧ e2.width = 1 ∧ e2.b = tripled.b ++ [0x1D, 0x21, 0x00]) ∧
    (∃ e2, WriteNode textReplaceMap tripled (lit "text") (oneParam (lit "width") (lit "-255")) []
        = Outcome.ok e2 ∧ e2.width = 1 ∧ e2.b = tripled.b ++ [0x1D, 0x21, 0x00]) := by
  refine ⟨by decide, ⟨_, rfl, by decide, by decide⟩, ⟨_, rfl, by decide, by decide⟩⟩

/-- C20: for the language code of index `i` (0..9) `SetLang` returns and
appends `1B 52 i`, which is what `SetRotate(i)` appends; `SetLang` leaves the
`rotate` field, and every other setting, as it was. -/
theorem setLang_same_bytes_as_setRotate (e : Printer) (i : Nat) (hi : i < 10) :
    ∃ e2, SetLang e (langCodes.getD i []) = Outcome.ok e2 ∧
      e2.b = e.b ++ [0x1B, 0x52, i] ∧
      (SetRotate e i).b = e.b ++ [0x1B, 0x52, i] ∧
      e2.rotate = e.rotate ∧ e2.settings = e.settings := by
  have hf : fmtC (i : Int) = [i] := fmtC_ascii i (by omega)
  refine ⟨Write e ([0x1B, 0x52] ++ fmtC (i : Int)), ?_, ?_, ?_, rfl, rfl⟩
  · simp only [SetLang, langCode_langCodes i hi]
  · rw [hf]; simp [Write, WriteRaw]
  · show e.b ++ ([0x1B, 0x52] ++ fmtC (i : Int)) = _
    rw [hf]; simp

theorem setLang_same_bytes_as_setRotate_witness :
    ∃ e2, SetLang toggled (langCodes.getD 9 []) = Outcome.ok e2 ∧
      e2.b = toggled.b ++ [0x1B, 0x52, 9] ∧
      (SetRotate toggled 9).b = toggled.b ++ [0x1B, 0x52, 9] ∧
      e2.rotate = toggled.rotate ∧ e2.settings = toggled.settings :=
  setLang_same_bytes_as_setRotate toggled 9 (by decide)

/-- C15, as stated, fails: after the text node `em=true` with payload `Hi` on
a fresh encoder, `ReadString` is `1B 47 01 48 69`, not `Hi`. -/
theorem readString_holds_escape_bytes :
    ∃ e2, WriteNode textReplaceMap New (lit "text") (oneParam (lit "em") (lit "true")) (lit "Hi")
        = Outcome.ok e2 ∧
      ReadString e2 = [0x1B, 0x47, 0x01, 0x48, 0x69] ∧ ReadString e2 ≠ lit "Hi" :=
  ⟨_, rfl, by decide, by decide⟩

theorem grows_refl (e : Printer) : Grows e e := ⟨List.prefix_refl _, List.prefix_refl _⟩

theorem grows_trans {a b c : Printer} (h1 : Grows a b) (h2 : Grows b c) : Grows a c :=
  ⟨h1.1.trans h2.1, h1.2.trans h2.2⟩

theorem wroteOnly_refl (e : Printer) : WroteOnly e e := ⟨[], by simp, by simp⟩

theorem wroteOnly_trans {a b c : Printer} (h1 : WroteOnly a b) (h2 : WroteOnly b c) :
    WroteOnly a c := by
  obtain ⟨s1, hs1, hb1⟩ := h1
  obtain ⟨s2, hs2, hb2⟩ := h2
  exact ⟨s1 ++ s2, by rw [hs2, hs1, List.append_assoc], by rw [hb2, hb1, List.append_assoc]⟩

theorem wroteOnly_write (e : Printer) (data : GoString) : WroteOnly e (Write e data) :=
  ⟨data, rfl, rfl⟩

theorem wroteOnly_grows {e e2 : Printer} (h : WroteOnly e e2) : Grows e e2 := by
  obtain ⟨seg, hs, hb⟩ := h
  exact ⟨by rw [hb]; exact List.prefix_append _ _, by rw [hs]; exact List.prefix_append _ _⟩

/-- A relation that is transitive passes through `andThen`. -/
theorem rel_andThen (R : Printer → Printer → Prop)
    (htrans : ∀ a b c, R a b → R b c → R a c) {e : Printer} {o : Outcome}
    {f : Printer → Outcome} (h1 : R e o.printer) (h2 : ∀ e1, R e1 (f e1).printer) :
    R e (o.andThen f).printer := by
  cases o with
  | ok e1 => exact htrans _ _ _ h1 (h2 e1)
  | stopped w e1 => exact h1

theorem wroteOnly_andThen {e : Printer} {o : Outcome} {f : Printer → Outcome}
    (h1 : WroteOnly e o.printer) (h2 : ∀ e1, WroteOnly e1 (f e1).printer) :
    WroteOnly e (o.andThen f).printer :=
  rel_andThen WroteOnly (fun _ _ _ => wroteOnly_trans) h1 h2

theorem grows_andThen {e : Printer} {o : Outcome} {f : Printer → Outcome}
    (h1 : Grows e o.printer) (h2 : ∀ e1, Grows e1 (f e1).printer) :
    Grows e (o.andThen f).printer :=
  rel_andThen Grows (fun _ _ _ => grows_trans) h1 h2

theorem wroteOnly_setAlign (e : Printer) (a : GoString) : WroteOnly e (SetAlign e a).printer := by
  unfold SetAlign
  cases alignCode a with
  | none => exact wroteOnly_refl e
  | some c => exact wroteOnly_write e _

theorem wroteOnly_setLang (e : Printer) (l : GoString) : WroteOnly e (SetLang e l).printer := by
  unfold SetLang
  cases langCode l with
  | none => exact wroteOnly_refl e
  | some c => exact wroteOnly_write e _

theorem wroteOnly_setFont (e : Printer) (f : GoString) : WroteOnly e (SetFont e f).printer := by
  unfold SetFont
  split
  · exact wroteOnly_write e _
  · split
    · exact wroteOnly_write e _
    · exact wroteOnly_refl e

theorem wroteOnly_setFontSize (e : Printer) (w h : Nat) :
    WroteOnly e (SetFontSize e w h).printer := by
  unfold SetFontSize
  split
  · exact ⟨_, rfl, rfl⟩
  · exact wroteOnly_refl e

theorem wroteOnly_alignStep (params : Params) (e : Printer) :
    WroteOnly e (alignStep params e).printer := by
  unfold alignStep
  cases params (lit "align") with
  | none => exact wroteOnly_refl e
  | some a => exact wroteOnly_setAlign e a

theorem wroteOnly_langStep (params : Params) (e : Printer) :
    WroteOnly e (langStep params e).printer := by
  unfold langStep
  cases params (lit "lang") with
  | none => exact wroteOnly_refl e
  | some a => exact wroteOnly_setLang e a

theorem wroteOnly_ite (c : Bool) (f : Printer → Printer) (e x : Printer)
    (hx : WroteOnly e x) (hf : ∀ y, WroteOnly y (f y)) :
    WroteOnly e (if c = true then f x else x) := by
  cases c with
  | false => exact hx
  | true => exact wroteOnly_trans hx (hf x)

theorem wroteOnly_flagsStep (params : Params) (e : Printer) :
    WroteOnly e (flagsStep params e) := by
  dsimp only [flagsStep]
  refine wroteOnly_ite _ (fun e => SetRotate e 1) e _ ?_ (fun y => ⟨_, rfl, rfl⟩)
  refine wroteOnly_ite _ (fun e => SetReverse e 1) e _ ?_ (fun y => ⟨_, rfl, rfl⟩)
  refine wroteOnly_ite _ (fun e => SetUnderline e 1) e _ ?_ (fun y => ⟨_, rfl, rfl⟩)
  refine wroteOnly_ite _ (fun e => SetEmphasize e 1) e _ ?_ (fun y => ⟨_, rfl, rfl⟩)
  exact wroteOnly_ite _ (fun e => SetSmooth e 1) e _ (wroteOnly_refl e) (fun y => ⟨_, rfl, rfl⟩)

theorem wroteOnly_fontStep (params : Params) (e : Printer) :
    WroteOnly e (fontStep params e).printer := by
  unfold fontStep
  cases params (lit "font") with
  | none => exact wroteOnly_refl e
  | some f =>
    dsimp only
    split
    · exact wroteOnly_refl e
    · exact wroteOnly_setFont e _

theorem wroteOnly_dwStep (params : Params) (e : Printer) :
    WroteOnly e (dwStep params e).printer := by
  unfold dwStep
  split
  · exact wroteOnly_setFontSize e _ _
  · exact wroteOnly_refl e

theorem wroteOnly_dhStep (params : Params) (e : Printer) :
    WroteOnly e (dhStep params e).printer := by
  unfold dhStep
  split
  · exact wroteOnly_setFontSize e _ _
  · exact wroteOnly_refl e

theorem wroteOnly_widthStep (params : Params) (e : Printer) :
    WroteOnly e (widthStep params e).printer := by
  unfold widthStep
  cases params (lit "width") with
  | none => exact wroteOnly_refl e
  | some w =>
    dsimp only
    cases Atoi w with
    | none => exact wroteOnly_refl e
    | some i => exact wroteOnly_setFontSize e _ _

theorem wroteOnly_heightStep (params : Params) (e : Printer) :
    WroteOnly e (heightStep params e).printer := by
  unfold heightStep
  cases params (lit "height") with
  | none => exact wroteOnly_refl e
  | some w =>
    dsimp only
    cases Atoi w with
    | none => exact wroteOnly_refl e
    | some i => exact wroteOnly_setFontSize e _ _

theorem wroteOnly_xStep (params : Params) (e : Printer) :
    WroteOnly e (xStep params e).printer := by
  unfold xStep
  cases params (lit "x") with
  | none => exact wroteOnly_refl e
  | some w =>
    dsimp only
    cases Atoi w with
    | none => exact wroteOnly_refl e
    | some i => exact wroteOnly_write e _

theorem wroteOnly_yStep (params : Params) (e : Printer) :
    WroteOnly e (yStep params e).printer := by
  unfold yStep
  cases params (lit "y") with
  | none => exact wroteOnly_refl e
  | some w =>
    dsimp only
    cases Atoi w with
    | none => exact wroteOnly_refl e
    | some i => exact wroteOnly_write e _

theorem wroteOnly_payloadStep (order : List (GoString × GoString)) (data : GoString)
    (e : Printer) : WroteOnly e (payloadStep order data e).printer := by
  unfold payloadStep
  split
  · exact wroteOnly_write e _
  · exact wroteOnly_refl e

/-- Whatever its parameters, and whether it returns or stops, `Text` only
calls `Write`. -/
theorem wroteOnly_text (order : List (GoString × GoString)) (e : Printer) (params : Params)
    (data : GoString) : WroteOnly e (Text order e params data).printer := by
  rw [text_chain]
  refine wroteOnly_andThen (wroteOnly_alignStep params e) fun e1 => ?_
  refine wroteOnly_andThen (wroteOnly_langStep params e1) fun e2 => ?_
  refine wroteOnly_andThen
    (wroteOnly_trans (wroteOnly_flagsStep params e2) (wroteOnly_fontStep params _)) fun e3 => ?_
  refine wroteOnly_andThen (wroteOnly_dwStep params e3) fun e4 => ?_
  refine wroteOnly_andThen (wroteOnly_dhStep params e4) fun e5 => ?_
  refine wroteOnly_andThen (wroteOnly_widthStep params e5) fun e6 => ?_
  refine wroteOnly_andThen (wroteOnly_heightStep params e6) fun e7 => ?_
  refine wroteOnly_andThen (wroteOnly_xStep params e7) fun e8 => ?_
  refine wroteOnly_andThen (wroteOnly_yStep params e8) fun e9 => ?_
  exact wroteOnly_payloadStep order data e9


theorem wroteOnly_reset (e : Printer) : WroteOnly e (reset e) := ⟨[], by simp [reset], by simp [reset]⟩

/-- Whatever its parameters, and whether it returns or stops, `Feed` only
calls `Write`. -/
theorem wroteOnly_feed (e : Printer) (params : Params) : WroteOnly e (Feed e params).printer := by
  unfold Feed
  refine wroteOnly_andThen ?_ fun e1 => wroteOnly_andThen ?_ fun e2 => ?_
  · cases params (lit "line") with
    | none => exact wroteOnly_refl e
    | some l =>
      dsimp only
      cases Atoi l with
      | none => exact wroteOnly_refl e
      | some i => exact wroteOnly_write e _
  · cases params (lit "unit") with
    | none => exact wroteOnly_refl e1
    | some u =>
      dsimp only
      cases Atoi u with
      | none => exact wroteOnly_refl e1
      | some i => exact wroteOnly_write e1 _
  · dsimp only [Outcome.printer]
    refine wroteOnly_trans (b := Linefeed e2 1) ⟨_, rfl, rfl⟩ ?_
    refine wroteOnly_trans (wroteOnly_reset _) ?_
    refine wroteOnly_trans (b := SendEmphasize _) ⟨_, rfl, rfl⟩ ?_
    refine wroteOnly_trans (b := SendRotate _) ⟨_, rfl, rfl⟩ ?_
    refine wroteOnly_trans (b := SendSmooth _) ⟨_, rfl, rfl⟩ ?_
    refine wroteOnly_trans (b := SendReverse _) ⟨_, rfl, rfl⟩ ?_
    refine wroteOnly_trans (b := SendUnderline _) ⟨_, rfl, rfl⟩ ?_
    refine wroteOnly_trans (b := SendUpsidedown _) ⟨_, rfl, rfl⟩ ?_
    refine wroteOnly_trans (b := SendFontSize _) ⟨_, rfl, rfl⟩ ?_
    exact ⟨_, rfl, rfl⟩

theorem grows_writeRaw (e : Printer) (data : GoString) : Grows e (WriteRaw e data) :=
  ⟨List.prefix_append _ _, List.prefix_refl _⟩

theorem grows_gSend (e : Printer) (m fn : Nat) (data : GoString) : Grows e (gSend e m fn data) :=
  grows_trans (wroteOnly_grows (wroteOnly_write e _))
    (grows_trans (grows_writeRaw _ _) (grows_writeRaw _ _))

theorem grows_image (e : Printer) (params : Params) (data : GoString) :
    Grows e (Image e params data).printer := by
  unfold Image
  refine grows_andThen ?_ fun e1 => ?_
  · cases params (lit "align") with
    | none => exact grows_refl e
    | some a => exact wroteOnly_grows (wroteOnly_setAlign e a)
  · cases params (lit "width") with
    | none => exact grows_refl e1
    | some w =>
      dsimp only
      cases params (lit "height") with
      | none => exact grows_refl e1
      | some h =>
        dsimp only
        cases Atoi w with
        | none => exact grows_refl e1
        | some iw =>
          dsimp only
          cases Atoi h with
          | none => exact grows_refl e1
          | some ih =>
            dsimp only
            cases DecodeString data with
            | none => exact grows_refl e1
            | some dec => exact grows_trans (grows_gSend _ _ _ _) (grows_gSend _ _ _ _)

theorem grows_feedAndCut (e : Printer) (params : Params) : Grows e (FeedAndCut e params) := by
  unfold FeedAndCut
  dsimp only
  split
  · exact wroteOnly_grows (wroteOnly_trans (b := Formfeed e) ⟨_, rfl, rfl⟩ ⟨_, rfl, rfl⟩)
  · exact wroteOnly_grows ⟨_, rfl, rfl⟩

theorem grows_writeNode (order : List (GoString × GoString)) (e : Printer) (name : GoString)
    (params : Params) (data : GoString) :
    Grows e (WriteNode order e name params data).printer := by
  unfold WriteNode
  split
  · exact wroteOnly_grows (wroteOnly_text order e params data)
  · split
    · exact wroteOnly_grows (wroteOnly_feed e params)
    · split
      · exact grows_feedAndCut e params
      · split
        · exact wroteOnly_grows ⟨_, rfl, rfl⟩
        · split
          · exact grows_image e params data
          · exact grows_refl e

theorem grows_init (e : Printer) : Grows e (Init e) := by
  unfold Init
  dsimp only
  refine wroteOnly_grows (wroteOnly_trans (wroteOnly_reset e) ?_)
  refine wroteOnly_trans (b := Write _ [0x1B, 0x40]) ⟨_, rfl, rfl⟩ ?_
  refine wroteOnly_trans (b := SendEmphasize _) ⟨_, rfl, rfl⟩ ?_
  refine wroteOnly_trans (b := SetPrinterType _ 0) ⟨_, rfl, rfl⟩ ?_
  exact ⟨_, rfl, rfl⟩

/-- Every call leaves both buffers with their former content in front,
whether it returns or stops. -/
theorem grows_exec (c : Call) (e : Printer) : Grows e (exec c e).printer := by
  cases c with
  | text order params data => exact wroteOnly_grows (wroteOnly_text order e params data)
  | feed params => exact wroteOnly_grows (wroteOnly_feed e params)
  | feedAndCut params => exact grows_feedAndCut e params
  | image params data => exact grows_image e params data
  | writeNode order name params data => exact grows_writeNode order e name params data
  | init => exact grows_init e
  | setFont f => exact wroteOnly_grows (wroteOnly_setFont e f)
  | setFontSize w h => exact wroteOnly_grows (wroteOnly_setFontSize e w h)
  | setAlign a => exact wroteOnly_grows (wroteOnly_setAlign e a)
  | setLang l => exact wroteOnly_grows (wroteOnly_setLang e l)
  | readbyte => exact grows_refl e
  | readString => exact grows_refl e
  | writeRaw data => exact grows_writeRaw e data
  | openCashBox =>
    exact wroteOnly_grows (wroteOnly_trans (b := Write e _) ⟨_, rfl, rfl⟩ ⟨_, rfl, rfl⟩)
  | printSplitLine n s =>
    exact wroteOnly_grows (wroteOnly_trans (b := Write e _) ⟨_, rfl, rfl⟩ ⟨_, rfl, rfl⟩)
  | setMoveSize x y =>
    simp [exec, Outcome.printer, Grows, SetMoveSize, Write, WriteRaw]
  | setLocation l n =>
    simp [exec, Outcome.printer, Grows, SetLocation, Write, WriteRaw]
  | setReLocation l n =>
    simp [exec, Outcome.printer, Grows, SetReLocation, Write, WriteRaw]
  | _ => exact wroteOnly_grows ⟨_, rfl, rfl⟩

theorem inv_write (e : Printer) (data : GoString) : Inv (Write e data) ↔ Inv e := Iff.rfl

theorem inv_writeRaw (e : Printer) (data : GoString) : Inv (WriteRaw e data) ↔ Inv e := Iff.rfl

theorem invOk_ok {e : Printer} (h : Inv e) : InvOk (Outcome.ok e) := by
  intro e1 h1
  cases h1
  exact h

theorem invOk_stopped (w : Stop) (e : Printer) : InvOk (Outcome.stopped w e) := by
  intro e1 h1
  cases h1

theorem invOk_andThen {o : Outcome} {f : Printer → Outcome} (h1 : InvOk o)
    (h2 : ∀ e1, Inv e1 → InvOk (f e1)) : InvOk (o.andThen f) := by
  cases o with
  | ok e1 => exact h2 e1 (h1 e1 rfl)
  | stopped w e1 => exact invOk_stopped w e1

theorem invOk_setAlign (e : Printer) (a : GoString) (h : Inv e) : InvOk (SetAlign e a) := by
  unfold SetAlign
  cases alignCode a with
  | none => exact invOk_stopped _ _
  | some c => exact invOk_ok h

theorem invOk_setLang (e : Printer) (l : GoString) (h : Inv e) : InvOk (SetLang e l) := by
  unfold SetLang
  cases langCode l with
  | none => exact invOk_stopped _ _
  | some c => exact invOk_ok h

theorem invOk_setFont (e : Printer) (f : GoString) (h : Inv e) : InvOk (SetFont e f) := by
  unfold SetFont
  split
  · exact invOk_ok h
  · split
    · exact invOk_ok h
    · exact invOk_stopped _ _

theorem invOk_setFontSize (e : Printer) (w h : Nat) (hi : Inv e) : InvOk (SetFontSize e w h) := by
  unfold SetFontSize
  split
  · next hc =>
    obtain ⟨-, -, -, -, h5, h6, h7, h8, h9, h10⟩ := hi
    exact invOk_ok ⟨hc.1, hc.2.2.1, hc.2.1, hc.2.2.2, h5, h6, h7, h8, h9, h10⟩
  · exact invOk_stopped _ _

theorem inv_ite (c : Bool) (f : Printer → Printer) (x : Printer) (hx : Inv x)
    (hf : ∀ y, Inv y → Inv (f y)) : Inv (if c = true then f x else x) := by
  cases c with
  | false => exact hx
  | true => exact hf x hx

theorem inv_flagsStep (params : Params) (e : Printer) (h : Inv e) : Inv (flagsStep params e) := by
  dsimp only [flagsStep]
  refine inv_ite _ (fun e => SetRotate e 1) _ ?_ fun y hy => ?_
  refine inv_ite _ (fun e => SetReverse e 1) _ ?_ fun y hy => ?_
  refine inv_ite _ (fun e => SetUnderline e 1) _ ?_ fun y hy => ?_
  refine inv_ite _ (fun e => SetEmphasize e 1) _ ?_ fun y hy => ?_
  refine inv_ite _ (fun e => SetSmooth e 1) _ h fun y hy => ?_
  all_goals
    obtain ⟨h1, h2, h3, h4, h5, h6, h7, h8, h9, h10⟩ := hy
    first
      | exact ⟨h1, h2, h3, h4, h5, h6, h7, h8, h9, Or.inr rfl⟩
      | exact ⟨h1, h2, h3, h4, h5, Or.inr rfl, h7, h8, h9, h10⟩
      | exact ⟨h1, h2, h3, h4, Or.inr rfl, h6, h7, h8, h9, h10⟩
      | exact ⟨h1, h2, h3, h4, h5, h6, h7, h8, Or.inr rfl, h10⟩
      | exact ⟨h1, h2, h3, h4, h5, h6, h7, Or.inr rfl, h9, h10⟩

theorem invOk_text (order : List (GoString × GoString)) (e : Printer) (params : Params)
    (data : GoString) (h : Inv e) : InvOk (Text order e params data) := by
  rw [text_chain]
  refine invOk_andThen ?_ fun e1 h1 => invOk_andThen ?_ fun e2 h2 => invOk_andThen ?_
    fun e3 h3 => invOk_andThen ?_ fun e4 h4 => invOk_andThen ?_ fun e5 h5 => invOk_andThen ?_
    fun e6 h6 => invOk_andThen ?_ fun e7 h7 => invOk_andThen ?_ fun e8 h8 => invOk_andThen ?_
    fun e9 h9 => ?_
  · unfold alignStep
    cases params (lit "align") with
    | none => exact invOk_ok h
    | some a => exact invOk_setAlign e a h
  · unfold langStep
    cases params (lit "lang") with
    | none => exact invOk_ok h1
    | some a => exact invOk_setLang e1 a h1
  · unfold fontStep
    cases params (lit "font") with
    | none => exact invOk_ok (inv_flagsStep params e2 h2)
    | some f =>
      dsimp only
      split
      · exact invOk_stopped _ _
      · exact invOk_setFont _ _ (inv_flagsStep params e2 h2)
  · unfold dwStep
    split
    · exact invOk_setFontSize _ _ _ h3
    · exact invOk_ok h3
  · unfold dhStep
    split
    · exact invOk_setFontSize _ _ _ h4
    · exact invOk_ok h4
  · unfold widthStep
    cases params (lit "width") with
    | none => exact invOk_ok h5
    | some w =>
      dsimp only
      cases Atoi w with
      | none => exact invOk_stopped _ _
      | some i => exact invOk_setFontSize _ _ _ h5
  · unfold heightStep
    cases params (lit "height") with
    | none => exact invOk_ok h6
    | some w =>
      dsimp only
      cases Atoi w with
      | none => exact invOk_stopped _ _
      | some i => exact invOk_setFontSize _ _ _ h6
  · unfold xStep
    cases params (lit "x") with
    | none => exact invOk_ok h7
    | some w =>
      dsimp only
      cases Atoi w with
      | none => exact invOk_stopped _ _
      | some i => exact invOk_ok h7
  · unfold yStep
    cases params (lit "y") with
    | none => exact invOk_ok h8
    | some w =>
      dsimp only
      cases Atoi w with
      | none => exact invOk_stopped _ _
      | some i => exact invOk_ok h8
  · unfold payloadStep
    split
    · exact invOk_ok h9
    · exact invOk_ok h9

theorem inv_of_defaults {e : Printer} (h : e.settings = defaults) : Inv e := by
  simp only [Printer.settings, defaults, List.cons.injEq, and_true] at h
  obtain ⟨h1, h2, h3, h4, h5, h6, h7, h8⟩ := h
  simp [Inv, h1, h2, h3, h4, h5, h6, h7, h8]

theorem inv_of_settings {e e2 : Printer} (hs : e2.settings = e.settings) (h : Inv e) :
    Inv e2 := by
  simp only [Printer.settings, List.cons.injEq, and_true] at hs
  obtain ⟨h1, h2, h3, h4, h5, h6, h7, h8⟩ := hs
  unfold Inv at h ⊢
  rw [h1, h2, h3, h4, h5, h6, h7, h8]
  exact h

theorem invOk_image (e : Printer) (params : Params) (data : GoString) (h : Inv e) :
    InvOk (Image e params data) := by
  unfold Image
  refine invOk_andThen ?_ fun e1 h1 => ?_
  · cases params (lit "align") with
    | none => exact invOk_ok h
    | some a => exact invOk_setAlign e a h
  · cases params (lit "width") with
    | none => exact invOk_stopped _ _
    | some w =>
      dsimp only
      cases params (lit "height") with
      | none => exact invOk_stopped _ _
      | some hh =>
        dsimp only
        cases Atoi w with
        | none => exact invOk_stopped _ _
        | some iw =>
          dsimp only
          cases Atoi hh with
          | none => exact invOk_stopped _ _
          | some ih =>
            dsimp only
            cases DecodeString data with
            | none => exact invOk_stopped _ _
            | some dec =>
              exact invOk_ok (inv_of_settings
                ((gSend_settings _ _ _ _).trans (gSend_settings _ _ _ _)) h1)

theorem feedAndCut_settings (e : Printer) (params : Params) :
    (FeedAndCut e params).settings = e.settings := by
  unfold FeedAndCut
  dsimp only
  split
  · rfl
  · rfl

theorem invOk_feed (e : Printer) (params : Params) : InvOk (Feed e params) :=
  fun e2 h2 => inv_of_defaults (feed_ok_settings e e2 params h2)

theorem invOk_writeNode (order : List (GoString × GoString)) (e : Printer) (name : GoString)
    (params : Params) (data : GoString) (h : Inv e) :
    InvOk (WriteNode order e name params data) := by
  unfold WriteNode
  split
  · exact invOk_text order e params data h
  · split
    · exact invOk_feed e params
    · split
      · exact invOk_ok (inv_of_settings (feedAndCut_settings e params) h)
      · split
        · exact invOk_ok ((inv_write e _).mpr h)
        · split
          · exact invOk_image e params data h
          · exact invOk_ok h

theorem inv_new : Inv New := inv_of_defaults rfl

theorem inv_init (e : Printer) : Inv (Init e) := by
  simp [Inv, Init, reset, SendEmphasize, SetPrinterType, SendRotate, Write, WriteRaw]

theorem invOk_run : ∀ (calls : List Call) (e : Printer), Inv e →
    (∀ c ∈ calls, c.isDispatch = true) → InvOk (run calls e)
  | [], e, h, _ => invOk_ok h
  | c :: cs, e, h, hc => by
    have hcs : ∀ c ∈ cs, c.isDispatch = true := fun x hx => hc x (List.mem_cons_of_mem c hx)
    have hc0 : c.isDispatch = true := hc c (List.mem_cons_self c cs)
    show InvOk ((exec c e).andThen (run cs))
    refine invOk_andThen ?_ fun e1 h1 => invOk_run cs e1 h1 hcs
    cases c with
    | init => exact invOk_ok (inv_init e)
    | setFontSize w hh => exact invOk_setFontSize e w hh h
    | writeNode order name params data => exact invOk_writeNode order e name params data h
    | _ => simp [Call.isDispatch] at hc0

/-- C13: the invariant (sizes in 1..8, every toggle 0 or 1) holds for `New`,
holds after `Init`, is kept by a `SetFontSize` that returns and by every
`WriteNode` dispatch that returns, whatever the node name and parameters, and
so holds after every sequence of such calls on a fresh encoder. -/
theorem invariant_kept :
    Inv New ∧ (∀ e, Inv (Init e)) ∧
    (∀ e w h e2, Inv e → SetFontSize e w h = Outcome.ok e2 → Inv e2) ∧
    (∀ order e name params data e2, Inv e →
      WriteNode order e name params data = Outcome.ok e2 → Inv e2) ∧
    (∀ calls e2, (∀ c ∈ calls, c.isDispatch = true) →
      run calls New = Outcome.ok e2 → Inv e2) :=
  ⟨inv_new, inv_init,
   fun e w h e2 hi he => invOk_setFontSize e w h hi e2 he,
   fun order e name params data e2 hi he => invOk_writeNode order e name params data hi e2 he,
   fun calls e2 hc he => invOk_run calls New inv_new hc e2 he⟩

theorem invariant_kept_witness :
    run sampleCalls New = Outcome.ok (run sampleCalls New).printer ∧
    (run sampleCalls New).printer.width = 2 ∧ Inv (run sampleCalls New).printer :=
  ⟨by decide, by decide, invariant_kept.2.2.2.2 sampleCalls _ (by decide) (by decide)⟩

/-- C14: every public method that returns leaves the byte buffer and the
text string with their former content in front: the buffer before the call is
an initial segment of the buffer after it, and so is the text string.  This
covers `Init` and `Feed`, which reset the settings. -/
theorem buffers_append_only (c : Call) (e e2 : Printer) (h : exec c e = Outcome.ok e2) :
    e.b <+: e2.b ∧ e.s <+: e2.s := by
  have hg := grows_exec c e
  rw [h] at hg
  exact hg

theorem buffers_append_only_witness :
    toggled.b <+: (Init toggled).b ∧ toggled.s <+: (Init toggled).s :=
  buffers_append_only Call.init toggled (Init toggled) rfl

theorem wroteOnly_run : ∀ (calls : List Call) (e : Printer),
    (∀ c ∈ calls, c.isTextNode = true) → WroteOnly e (run calls e).printer
  | [], e, _ => wroteOnly_refl e
  | c :: cs, e, hc => by
    have hcs : ∀ c ∈ cs, c.isTextNode = true := fun x hx => hc x (List.mem_cons_of_mem c hx)
    have hc0 : c.isTextNode = true := hc c (List.mem_cons_self c cs)
    show WroteOnly e ((exec c e).andThen (run cs)).printer
    refine wroteOnly_andThen ?_ fun e1 => wroteOnly_run cs e1 hcs
    cases c with
    | writeNode order name params data =>
      have hn : name = lit "text" := by simpa [Call.isTextNode] using hc0
      show WroteOnly e (WriteNode order e name params data).printer
      rw [hn, writeNode_text]
      exact wroteOnly_text order e params data
    | _ => simp [Call.isTextNode] at hc0

theorem text_noParams (order : List (GoString × GoString)) (e : Printer) (data : GoString) :
    Text order e noParams data = payloadStep order data e := by
  rw [text_chain, alignStep_absent _ _ rfl, andThen_ok_eq, langStep_absent _ _ rfl,
    andThen_ok_eq, flagsStep_absent _ _ rfl rfl rfl rfl rfl, fontStep_absent _ _ rfl,
    andThen_ok_eq, dwStep_absent _ _ rfl, andThen_ok_eq, dhStep_absent _ _ rfl, andThen_ok_eq,
    widthStep_absent _ _ rfl, andThen_ok_eq, heightStep_absent _ _ rfl, andThen_ok_eq,
    xStep_absent _ _ rfl, andThen_ok_eq, yStep_absent _ _ rfl, andThen_ok_eq]

theorem payloadStep_s (order : List (GoString × GoString)) (data : GoString) (e e2 : Printer)
    (h : payloadStep order data e = Outcome.ok e2) :
    e2.s = e.s ++ textReplaceIn order data := by
  unfold payloadStep at h
  split at h
  · cases h; rfl
  · next hl =>
    cases h
    have h0 : textReplaceIn order data = [] := List.length_eq_zero.mp (by omega)
    rw [h0, List.append_nil]

/-- C15, amended: after any sequence of `text` dispatches that all return on
a fresh encoder, `ReadString` is the byte buffer itself, escape sequences
included; a `text` node with no parameters adds exactly its substituted
payload to it. -/
theorem readString_is_byte_buffer :
    (∀ calls e2, (∀ c ∈ calls, c.isTextNode = true) → run calls New = Outcome.ok e2 →
      ReadString e2 = (Readbyte e2).2) ∧
    (∀ order e data e2, WriteNode order e (lit "text") noParams data = Outcome.ok e2 →
      ReadString e2 = ReadString e ++ textReplaceIn order data) := by
  constructor
  · intro calls e2 hc he
    have hw := wroteOnly_run calls New hc
    rw [he] at hw
    obtain ⟨seg, hs, hb⟩ := hw
    have hs2 : e2.s = New.s ++ seg := hs
    have hb2 : e2.b = New.b ++ seg := hb
    show e2.s = e2.b
    rw [hs2, hb2]
    rfl
  · intro order e data e2 he
    rw [writeNode_text, text_noParams] at he
    exact payloadStep_s order data e e2 he

theorem readString_is_byte_buffer_witness :
    ReadString (run textCalls New).printer = (Readbyte (run textCalls New).printer).2 ∧
    ReadString (run textCalls New).printer =
      [0x1B, 0x47, 0x01, 0x48, 0x69] ++ lit "a&b" :=
  ⟨readString_is_byte_buffer.1 textCalls _ (by decide) (by decide), by decide⟩

theorem write_nil (e : Printer) : Write e [] = e := by
  cases e
  simp [Write, WriteRaw]

theorem truthy_eq_flagOn (v : Option GoString) : truthy v = flagOn v := by
  unfold truthy flagOn
  by_cases h1 : v = some (lit "true") <;> by_cases h2 : v = some (lit "1") <;> simp [h1, h2]

theorem alignCode_alignNames : ∀ a ∈ alignNames,
    alignCode a = some ((alignNames.indexOf a : Nat) : Int) ∧ alignNames.indexOf a ≤ 0x7F := by
  decide

theorem langCode_indexOf : ∀ l ∈ langCodes,
    langCode l = some ((langCodes.indexOf l : Nat) : Int) ∧ langCodes.indexOf l ≤ 0x7F := by
  decide

theorem alignStep_valid (params : Params) (e : Printer)
    (hv : ∀ a, params (lit "align") = some a → a ∈ alignNames) :
    alignStep params e = Outcome.ok (Write e (specAlign params)) := by
  unfold alignStep specAlign
  cases h : params (lit "align") with
  | none => simp only [write_nil]
  | some a =>
    obtain ⟨hc, hle⟩ := alignCode_alignNames a (hv a h)
    simp only [SetAlign, hc, fmtC_ascii _ hle]
    rfl

theorem langStep_valid (params : Params) (e : Printer)
    (hv : ∀ l, params (lit "lang") = some l → l ∈ langCodes) :
    langStep params e = Outcome.ok (Write e (specLang params)) := by
  unfold langStep specLang
  cases h : params (lit "lang") with
  | none => simp only [write_nil]
  | some l =>
    obtain ⟨hc, hle⟩ := langCode_indexOf l (hv l h)
    simp only [SetLang, hc, fmtC_ascii _ hle]
    rfl

theorem fmtC_one : fmtC 1 = [1] := by decide

theorem fmtC_zero : fmtC 0 = [0] := by decide

/-- One flag statement: the field becomes 1 and the command is written when
the flag is on; nothing happens otherwise. -/
theorem flag_smooth (v : Option GoString) (e : Printer) :
    (if truthy v = true then SetSmooth e 1 else e) =
      Write { e with smooth := if flagOn v then 1 else e.smooth }
        (flagCmd (flagOn v) [0x1D, 0x62, 0x01]) := by
  rw [truthy_eq_flagOn]
  cases flagOn v with
  | false => simp only [Bool.false_eq_true, if_false, flagCmd, write_nil]
  | true => simp only [if_true, flagCmd, SetSmooth, SendSmooth, Nat.cast_one, fmtC_one]; rfl

theorem flag_em (v : Option GoString) (e : Printer) :
    (if truthy v = true then SetEmphasize e 1 else e) =
      Write { e with emphasize := if flagOn v then 1 else e.emphasize }
        (flagCmd (flagOn v) [0x1B, 0x47, 0x01]) := by
  rw [truthy_eq_flagOn]
  cases flagOn v with
  | false => simp only [Bool.false_eq_true, if_false, flagCmd, write_nil]
  | true => simp only [if_true, flagCmd, SetEmphasize, SendEmphasize, Nat.cast_one, fmtC_one]; rfl

theorem flag_ul (v : Option GoString) (e : Printer) :
    (if truthy v = true then SetUnderline e 1 else e) =
      Write { e with underline := if flagOn v then 1 else e.underline }
        (flagCmd (flagOn v) [0x1B, 0x2D, 0x01]) := by
  rw [truthy_eq_flagOn]
  cases flagOn v with
  | false => simp only [Bool.false_eq_true, if_false, flagCmd, write_nil]
  | true => simp only [if_true, flagCmd, SetUnderline, SendUnderline, Nat.cast_one, fmtC_one]; rfl

theorem flag_reverse (v : Option GoString) (e : Printer) :
    (if truthy v = true then SetReverse e 1 else e) =
      Write { e with reverse := if flagOn v then 1 else e.reverse }
        (flagCmd (flagOn v) [0x1D, 0x42, 0x01]) := by
  rw [truthy_eq_flagOn]
  cases flagOn v with
  | false => simp only [Bool.false_eq_true, if_false, flagCmd, write_nil]
  | true => simp only [if_true, flagCmd, SetReverse, SendReverse, Nat.cast_one, fmtC_one]; rfl

theorem flag_rotate (v : Option GoString) (e : Printer) :
    (if truthy v = true then SetRotate e 1 else e) =
      Write { e with rotate := if flagOn v then 1 else e.rotate }
        (flagCmd (flagOn v) [0x1B, 0x52, 0x01]) := by
  rw [truthy_eq_flagOn]
  cases flagOn v with
  | false => simp only [Bool.false_eq_true, if_false, flagCmd, write_nil]
  | true => simp only [if_true, flagCmd, SetRotate, SendRotate, Nat.cast_one, fmtC_one]; rfl

theorem flagsStep_eq (params : Params) (e : Printer) :
    flagsStep params e =
      Write { e with
          smooth := if flagOn (params (lit "smooth")) then 1 else e.smooth,
          emphasize := if flagOn (params (lit "em")) then 1 else e.emphasize,
          underline := if flagOn (params (lit "ul")) then 1 else e.underline,
          reverse := if flagOn (params (lit "reverse")) then 1 else e.reverse,
          rotate := if flagOn (params (lit "rotate")) then 1 else e.rotate }
        (flagCmd (flagOn (params (lit "smooth"))) [0x1D, 0x62, 0x01] ++
         flagCmd (flagOn (params (lit "em"))) [0x1B, 0x47, 0x01] ++
         flagCmd (flagOn (params (lit "ul"))) [0x1B, 0x2D, 0x01] ++
         flagCmd (flagOn (params (lit "reverse"))) [0x1D, 0x42, 0x01] ++
         flagCmd (flagOn (params (lit "rotate"))) [0x1B, 0x52, 0x01]) := by
  dsimp only [flagsStep]
  rw [flag_smooth, flag_em, flag_ul, flag_reverse, flag_rotate]
  simp only [Write, WriteRaw, List.append_assoc]


theorem setFont_sixth : ∀ c ∈ [0x61, 0x41, 0x62, 0x42],
    (toUpper1 c = lit "A" ↔ (c = 0x61 ∨ c = 0x41)) ∧
    (¬ (c = 0x61 ∨ c = 0x41) → toUpper1 c = lit "B") := by
  decide

theorem fontStep_valid (params : Params) (e : Printer)
    (hv : ∀ f, params (lit "font") = some f →
      6 ≤ f.length ∧ f.getD 5 0 ∈ [0x61, 0x41, 0x62, 0x42]) :
    fontStep params e = Outcome.ok (Write e (specFont params)) := by
  unfold fontStep specFont
  cases h : params (lit "font") with
  | none => simp only [write_nil]
  | some f =>
    obtain ⟨hlen, hmem⟩ := hv f h
    obtain ⟨hA, hB⟩ := setFont_sixth _ hmem
    have hl : ¬ f.length < 6 := by omega
    dsimp only
    by_cases hc : f.getD 5 0 = 0x61 ∨ f.getD 5 0 = 0x41
    · simp only [hl, if_false, SetFont, hA.mpr hc, if_true, hc, fmtC_zero]
      rfl
    · have hnA : ¬ toUpper1 (f.getD 5 0) = lit "A" := fun h => hc (hA.mp h)
      simp only [hl, if_false, SetFont, hnA, hB hc, if_true, hc, fmtC_one]
      rfl

/-- A `SetFontSize` with both sizes in 1..8 stores them and writes the size
command. -/
theorem setFontSize_ok (e : Printer) (w h : Nat) (hw1 : 1 ≤ w) (hw8 : w ≤ 8) (hh1 : 1 ≤ h)
    (hh8 : h ≤ 8) :
    SetFontSize e w h = Outcome.ok (Write { e with width := w, height := h } (sizeCmd w h)) := by
  obtain ⟨hp, hle⟩ := fontByte_eq w (by omega) h (by omega) hw1 hh1
  have hcond : 0 < w ∧ 0 < h ∧ w ≤ 8 ∧ h ≤ 8 := by omega
  simp only [SetFontSize, hcond, and_self, if_true, Outcome.ok.injEq]
  show Write { e with width := w, height := h } ([0x1D, 0x21] ++
      fmtC (((((w + 255) % 256) <<< 4) % 256 ||| (h + 255) % 256 : Nat) : Int)) = _
  rw [hp, fmtC_ascii _ (Nat.le_trans hle (by decide))]
  rfl

theorem dwStep_valid (params : Params) (e : Printer) (hh1 : 1 ≤ e.height) (hh8 : e.height ≤ 8) :
    dwStep params e =
      Outcome.ok (Write { e with width := specWidth1 e.width params }
        (flagCmd (flagOn (params (lit "dw"))) (sizeCmd 2 e.height))) := by
  unfold dwStep specWidth1
  rw [truthy_eq_flagOn]
  cases flagOn (params (lit "dw")) with
  | false => simp only [Bool.false_eq_true, if_false, flagCmd, write_nil]
  | true =>
    simp only [if_true, flagCmd]
    exact setFontSize_ok e 2 e.height (by decide) (by decide) hh1 hh8

theorem dhStep_valid (params : Params) (e : Printer) (hw1 : 1 ≤ e.width) (hw8 : e.width ≤ 8) :
    dhStep params e =
      Outcome.ok (Write { e with height := specHeight1 e.height params }
        (flagCmd (flagOn (params (lit "dh"))) (sizeCmd e.width 2))) := by
  unfold dhStep specHeight1
  rw [truthy_eq_flagOn]
  cases flagOn (params (lit "dh")) with
  | false => simp only [Bool.false_eq_true, if_false, flagCmd, write_nil]
  | true =>
    simp only [if_true, flagCmd]
    exact setFontSize_ok e e.width 2 hw1 hw8 (by decide) (by decide)

theorem toUint8_small (i : Int) (h1 : 1 ≤ i) (h8 : i ≤ 8) : toUint8 i = i.toNat := by
  unfold toUint8
  congr 1
  omega

theorem widthStep_valid (params : Params) (e : Printer) (hh1 : 1 ≤ e.height)
    (hh8 : e.height ≤ 8)
    (hv : ∀ w, params (lit "width") = some w → ∃ i : Int, Atoi w = some i ∧ 1 ≤ i ∧ i ≤ 8) :
    widthStep params e =
      Outcome.ok (Write
        { e with width := match intOf (params (lit "width")) with
                          | some i => i.toNat
                          | none => e.width }
        (match intOf (params (lit "width")) with
          | some i => sizeCmd i.toNat e.height
          | none => [])) := by
  unfold widthStep intOf
  cases h : params (lit "width") with
  | none => simp only [Option.none_bind, write_nil]
  | some w =>
    obtain ⟨i, hi, h1, h8⟩ := hv w h
    simp only [Option.some_bind, hi, toUint8_small i h1 h8]
    exact setFontSize_ok e i.toNat e.height (by omega) (by omega) hh1 hh8

theorem heightStep_valid (params : Params) (e : Printer) (hw1 : 1 ≤ e.width)
    (hw8 : e.width ≤ 8)
    (hv : ∀ w, params (lit "height") = some w → ∃ i : Int, Atoi w = some i ∧ 1 ≤ i ∧ i ≤ 8) :
    heightStep params e =
      Outcome.ok (Write
        { e with height := match intOf (params (lit "height")) with
                           | some i => i.toNat
                           | none => e.height }
        (match intOf (params (lit "height")) with
          | some i => sizeCmd e.width i.toNat
          | none => [])) := by
  unfold heightStep intOf
  cases h : params (lit "height") with
  | none => simp only [Option.none_bind, write_nil]
  | some w =>
    obtain ⟨i, hi, h1, h8⟩ := hv w h
    simp only [Option.some_bind, hi, toUint8_small i h1 h8]
    exact setFontSize_ok e e.width i.toNat hw1 hw8 (by omega) (by omega)

theorem toUint16_lt (i : Int) : toUint16 i < 65536 := by
  unfold toUint16
  omega

theorem xStep_valid (params : Params) (e : Printer)
    (hv : ∀ x, params (lit "x") = some x → ∃ i : Int, Atoi x = some i) :
    xStep params e = Outcome.ok (Write e (specMove 0x1B (params (lit "x")))) := by
  unfold xStep specMove intOf
  cases h : params (lit "x") with
  | none => simp only [Option.none_bind, write_nil]
  | some x =>
    obtain ⟨i, hi⟩ := hv x h
    have hlt := toUint16_lt i
    have h1 : toUint16 i / 256 < 256 := by omega
    simp only [Option.some_bind, hi, SendMoveX, Nat.mod_mod, Nat.mod_eq_of_lt h1]

theorem yStep_valid (params : Params) (e : Printer)
    (hv : ∀ y, params (lit "y") = some y → ∃ i : Int, Atoi y = some i) :
    yStep params e = Outcome.ok (Write e (specMove 0x1D (params (lit "y")))) := by
  unfold yStep specMove intOf
  cases h : params (lit "y") with
  | none => simp only [Option.none_bind, write_nil]
  | some y =>
    obtain ⟨i, hi⟩ := hv y h
    have hlt := toUint16_lt i
    have h1 : toUint16 i / 256 < 256 := by omega
    simp only [Option.some_bind, hi, SendMoveY, Nat.mod_mod, Nat.mod_eq_of_lt h1]

theorem payloadStep_eq (order : List (GoString × GoString)) (data : GoString) (e : Printer) :
    payloadStep order data e = Outcome.ok (Write e (textReplaceIn order data)) := by
  unfold payloadStep
  split
  · rfl
  · next hl =>
    have h0 : textReplaceIn order data = [] := List.length_eq_zero.mp (by omega)
    rw [h0, write_nil]


theorem specWidth1_range (w0 : Nat) (params : Params) (h1 : 1 ≤ w0) (h8 : w0 ≤ 8) :
    1 ≤ specWidth1 w0 params ∧ specWidth1 w0 params ≤ 8 := by
  unfold specWidth1
  split <;> omega

theorem specHeight1_range (h0 : Nat) (params : Params) (h1 : 1 ≤ h0) (h8 : h0 ≤ 8) :
    1 ≤ specHeight1 h0 params ∧ specHeight1 h0 params ≤ 8 := by
  unfold specHeight1
  split <;> omega

theorem specWidth2_range (w0 : Nat) (params : Params) (h1 : 1 ≤ w0) (h8 : w0 ≤ 8)
    (hv : ∀ w, params (lit "width") = some w → ∃ i : Int, Atoi w = some i ∧ 1 ≤ i ∧ i ≤ 8) :
    1 ≤ specWidth2 w0 params ∧ specWidth2 w0 params ≤ 8 := by
  unfold specWidth2 intOf
  cases h : params (lit "width") with
  | none => simpa only [Option.none_bind] using specWidth1_range w0 params h1 h8
  | some w =>
    obtain ⟨i, hi, hi1, hi8⟩ := hv w h
    simp only [Option.some_bind, hi]
    omega

/-- With valid parameters and stored sizes in 1..8, `Text` returns, and the
encoder it leaves is the former one with the listed bytes appended to both
buffers and the listed settings. -/
theorem text_valid (order : List (GoString × GoString)) (e : Printer) (params : Params)
    (data : GoString) (hw1 : 1 ≤ e.width) (hw8 : e.width ≤ 8) (hh1 : 1 ≤ e.height)
    (hh8 : e.height ≤ 8) (hv : ValidText params) :
    Text order e params data = Outcome.ok
      { width := specWidth2 e.width params,
        height := specHeight2 e.height params,
        underline := if flagOn (params (lit "ul")) then 1 else e.underline,
        emphasize := if flagOn (params (lit "em")) then 1 else e.emphasize,
        upsidedown := e.upsidedown,
        rotate := if flagOn (params (lit "rotate")) then 1 else e.rotate,
        reverse := if flagOn (params (lit "reverse")) then 1 else e.reverse,
        smooth := if flagOn (params (lit "smooth")) then 1 else e.smooth,
        s := e.s ++ textBytes order e.width e.height params data,
        b := e.b ++ textBytes order e.width e.height params data } := by
  obtain ⟨hvA, hvL, hvF, hvW, hvH, hvX, hvY⟩ := hv
  have w1 := specWidth1_range e.width params hw1 hw8
  have h1 := specHeight1_range e.height params hh1 hh8
  have w2 := specWidth2_range e.width params hw1 hw8 hvW
  rw [text_chain, alignStep_valid _ _ hvA, andThen_ok_eq, langStep_valid _ _ hvL, andThen_ok_eq,
    flagsStep_eq, fontStep_valid _ _ hvF, andThen_ok_eq,
    dwStep_valid _ _ ?_ ?_, andThen_ok_eq,
    dhStep_valid _ _ ?_ ?_, andThen_ok_eq,
    widthStep_valid _ _ ?_ ?_ hvW, andThen_ok_eq,
    heightStep_valid _ _ ?_ ?_ hvH, andThen_ok_eq,
    xStep_valid _ _ hvX, andThen_ok_eq, yStep_valid _ _ hvY, andThen_ok_eq, payloadStep_eq]
  · simp only [Write, WriteRaw, textBytes, specWidthCmd, specHeightCmd, specWidth2, specHeight2,
      List.append_assoc]
  all_goals
    first
      | exact hh1 | exact hh8 | exact w1.1 | exact w1.2 | exact h1.1 | exact h1.2
      | exact w2.1 | exact w2.2


theorem validText_richParams : ValidText richParams := by
  have hA : richParams (lit "align") = some (lit "center") := by decide
  have hL : richParams (lit "lang") = none := by decide
  have hF : richParams (lit "font") = some (lit "font:b") := by decide
  have hW : richParams (lit "width") = none := by decide
  have hH : richParams (lit "height") = some (lit "3") := by decide
  have hX : richParams (lit "x") = some (lit "300") := by decide
  have hY : richParams (lit "y") = none := by decide
  refine ⟨?_, ?_, ?_, ?_, ?_, ?_, ?_⟩
  · intro a ha
    rw [hA] at ha
    cases ha
    decide
  · intro l hl
    rw [hL] at hl
    cases hl
  · intro f hf
    rw [hF] at hf
    cases hf
    decide
  · intro w hw
    rw [hW] at hw
    cases hw
  · intro h hh
    rw [hH] at hh
    cases hh
    exact ⟨3, by decide, by decide, by decide⟩
  · intro x hx
    rw [hX] at hx
    cases hx
    exact ⟨300, by decide⟩
  · intro y hy
    rw [hY] at hy
    cases hy

/-- C16: for a text node whose parameters are all valid, on an encoder with
sizes in 1..8, `Text` returns and the bytes it appends are the commands for
align, lang, smooth, em, ul, reverse, rotate, font, dw, dh, width, height, x
and y in this order, each only when its parameter is present (a flag only
when its value is `true` or `1`), followed by the substituted payload; a flag
with any other value adds no bytes and leaves its field as it was. -/
theorem text_bytes_in_order (order : List (GoString × GoString)) (e : Printer)
    (params : Params) (data : GoString) (hw : 1 ≤ e.width ∧ e.width ≤ 8)
    (hh : 1 ≤ e.height ∧ e.height ≤ 8) (hv : ValidText params) :
    ∃ e2, Text order e params data = Outcome.ok e2 ∧
      e2.b = e.b ++ textBytes order e.width e.height params data ∧
      e2.settings = textSettings e params :=
  ⟨_, text_valid order e params data hw.1 hw.2 hh.1 hh.2 hv, rfl, rfl⟩

theorem text_bytes_in_order_witness :
    ∃ e2, Text textReplaceMap New richParams (lit "a&lt;b") = Outcome.ok e2 ∧
      e2.b = New.b ++ [0x1B, 0x61, 1, 0x1B, 0x47, 1, 0x1B, 0x4D, 1, 0x1D, 0x21, 0x10,
                       0x1D, 0x21, 0x12, 0x1B, 0x24, 44, 1, 0x61, 0x3C, 0x62] ∧
      e2.settings = [2, 3, 0, 1, 0, 0, 0, 0] :=
  text_bytes_in_order textReplaceMap New richParams (lit "a&lt;b") (by decide) (by decide)
    validText_richParams

end Escpos
